import Mathlib

/-!
Shallow embedding of the gaze-event classifier of
`pygaze/_eyetracker/libeyelink.py` (class `libeyelink`): the `sample`
poll, the six blocking `wait_for_*` operations in both the heuristic
(`pygaze`) and the delegated (`native`) event-detection modes, and the
native `wait_for_event` polling loop.

Collaborator calls (`pylink.getEYELINK().getNewestSample()`,
`clock.get_time()`, `getNextData()`, `getFloatData()`, `trackerTime()`)
are modelled as streams indexed by per-collaborator call counters.
Python floats are modelled as rationals; the source's `** 0.5` is
modelled by `psqrt`, a rational square root built from an executable
natural-number square root (exact on the perfect squares used in the
concrete runs). Loops are modelled with explicit fuel; `RunRes.out`
means the loop was still polling when the fuel ran out.
-/

namespace PyGaze

/-- a gaze position; `(-1, -1)` is the invalid sentinel -/
abbrev Gaze := ℚ × ℚ

/-- one tracker sample as returned by `getNewestSample()` -/
structure RawSample where
  isRight : Bool
  isLeft : Bool
  rightGaze : Gaze
  leftGaze : Gaze
  deriving DecidableEq

/-- the event record returned by `getFloatData()` -/
structure FloatData where
  time : ℚ
  startGaze : Gaze
  endGaze : Gaze
  deriving DecidableEq

/-- the collaborators: each function is the stream of values returned by
successive calls to one collaborator method -/
structure Env where
  feed : ℕ → Option RawSample
  clk : ℕ → ℚ
  nextData : ℕ → ℤ
  floatData : ℕ → FloatData
  trackerTime : ℕ → ℚ
  availEye : ℤ

/-- per-collaborator call counters -/
structure Ctr where
  s : ℕ
  c : ℕ
  d : ℕ
  f : ℕ
  tt : ℕ
  deriving DecidableEq

def Ctr.bumpS (x : Ctr) : Ctr := { x with s := x.s + 1 }

def Ctr.bumpC (x : Ctr) : Ctr := { x with c := x.c + 1 }

def Ctr.bumpD (x : Ctr) : Ctr := { x with d := x.d + 1 }

def Ctr.bumpF (x : Ctr) : Ctr := { x with f := x.f + 1 }

def Ctr.bumpTT (x : Ctr) : Ctr := { x with tt := x.tt + 1 }

/-- the fields of the `libeyelink` object that the polling code reads or
writes: `self.recording`, `self.eye_used`, `self.prevsample`,
`self.prevps` -/
structure TState where
  recording : Bool
  eyeUsed : Option ℤ
  prevsample : Gaze
  prevps : ℚ
  deriving DecidableEq

/-- the fixed detection thresholds of the object -/
structure Params where
  pxdsttreshX : ℚ
  pxdsttreshY : ℚ
  weightdist : ℚ
  pxspdtresh : ℚ
  pxacctresh : ℚ
  pxfixtresh : ℚ
  fixtimetresh : ℚ
  blink_threshold : ℚ

/-- `self.eventdetection` -/
inductive Mode where
  | native
  | pygaze
  deriving DecidableEq

/-- the exceptions the embedded code can raise -/
inductive Err where
  | notRecording
  | noneData
  | badEvent
  deriving DecidableEq

/-- result of running a fuelled polling loop: returned a value (with the
final object state and counters), raised, or ran out of fuel while
still polling -/
inductive RunRes (β : Type) where
  | ok (b : β) (σ : TState) (ctr : Ctr)
  | err (e : Err)
  | out
  deriving DecidableEq

def RunRes.map (f : α → β) : RunRes α → RunRes β
  | .ok a σ ctr => .ok (f a) σ ctr
  | .err e => .err e
  | .out => .out

/-- pylink event code STARTBLINK -/
def STARTBLINK : ℤ := 3

/-- pylink event code ENDBLINK -/
def ENDBLINK : ℤ := 4

/-- pylink event code STARTSACC -/
def STARTSACC : ℤ := 5

/-- pylink event code ENDSACC -/
def ENDSACC : ℤ := 6

/-- pylink event code STARTFIX -/
def STARTFIX : ℤ := 7

/-- pylink event code ENDFIX -/
def ENDFIX : ℤ := 8

/-- largest `m ≤ n` with `m * m ≤ k` (downward search) -/
def natSqrtAux : ℕ → ℕ → ℕ
  | 0, _ => 0
  | n + 1, k => if (n + 1) * (n + 1) ≤ k then n + 1 else natSqrtAux n k

/-- integer square root of a natural number -/
def natSqrt (k : ℕ) : ℕ := natSqrtAux k k

/-- model of the source's `** 0.5` on a nonnegative rational: the
rational whose numerator and denominator are the integer square roots
of the argument's; exact whenever numerator and denominator are both
perfect squares, which holds at every concrete run in this file -/
def psqrt (q : ℚ) : ℚ := mkRat (natSqrt q.num.toNat) (natSqrt q.den)

/-- `libeyelink.is_valid_sample`: `False` exactly on the sentinel -/
def is_valid_sample (gazepos : Gaze) : Bool :=
  if gazepos = (-1, -1) then false else true

/-- the eye-matching branch of `libeyelink.sample`: right eye is `1`,
left eye is `0`; any other case yields the sentinel -/
def resolveGaze (eye : ℤ) (s : RawSample) : Gaze :=
  if eye = 1 ∧ s.isRight then s.rightGaze
  else if eye = 0 ∧ s.isLeft then s.leftGaze
  else (-1, -1)

/-- `libeyelink.sample`: raises when not recording, resolves the eye if
unset, then either stores and returns the newly polled gaze (which may
be the sentinel) or repeats `self.prevsample` when no new sample is
available -/
def sample (env : Env) (σ : TState) (ctr : Ctr) :
    Except Err (Gaze × TState × Ctr) :=
  if σ.recording = false then .error .notRecording else
  let eye := σ.eyeUsed.getD env.availEye
  let σ1 : TState := { σ with eyeUsed := some eye }
  match env.feed ctr.s with
  | some s =>
      let gaze := resolveGaze eye s
      .ok (gaze, { σ1 with prevsample := gaze }, ctr.bumpS)
  | none => .ok (σ1.prevsample, σ1, ctr.bumpS)

/-- one call to `clock.get_time()` -/
def get_time (env : Env) (ctr : Ctr) : ℚ × Ctr := (env.clk ctr.c, ctr.bumpC)

/-- one call to `pylink.getEYELINK().getNextData()` -/
def getNextData (env : Env) (ctr : Ctr) : ℤ × Ctr :=
  (env.nextData ctr.d, ctr.bumpD)

/-- one call to `pylink.getEYELINK().getFloatData()` -/
def getFloatData (env : Env) (ctr : Ctr) : FloatData × Ctr :=
  (env.floatData ctr.f, ctr.bumpF)

/-- one call to `pylink.getEYELINK().trackerTime()` -/
def trackerTime (env : Env) (ctr : Ctr) : ℚ × Ctr :=
  (env.trackerTime ctr.tt, ctr.bumpTT)

/-- `libeyelink._get_eyelink_clock_async`: tracker time minus clock time -/
def eyelink_clock_async (env : Env) (ctr : Ctr) : ℚ × Ctr :=
  let t := trackerTime env ctr
  let c := get_time env t.2
  (t.1 - c.1, c.2)

/-- outcome of one iteration of a polling loop body -/
inductive BodyRes (α β : Type) where
  | cont (a : α) (σ : TState) (ctr : Ctr)
  | done (b : β) (σ : TState) (ctr : Ctr)
  | fail (e : Err)
  | spin

/-- run a polling loop: at most `fuel` iterations of `body` -/
def runLoop (body : α → TState → Ctr → BodyRes α β) :
    ℕ → α → TState → Ctr → RunRes β
  | 0, _, _, _ => .out
  | fuel + 1, a, σ, ctr =>
    match body a σ ctr with
    | .cont a1 σ1 ctr1 => runLoop body fuel a1 σ1 ctr1
    | .done b σ1 ctr1 => .ok b σ1 ctr1
    | .fail e => .err e
    | .spin => .out

/-- body of the `while not self.is_valid_sample(...)` acquisition loops:
poll until a valid sample arrives -/
def pollValidBody (env : Env) : Unit → TState → Ctr → BodyRes Unit Gaze :=
  fun _ σ ctr =>
    match sample env σ ctr with
    | .error e => .fail e
    | .ok (g, σ1, ctr1) =>
      if is_valid_sample g then .done g σ1 ctr1 else .cont () σ1 ctr1

def pollValid (env : Env) (fuel : ℕ) (σ : TState) (ctr : Ctr) : RunRes Gaze :=
  runLoop (pollValidBody env) fuel () σ ctr

/-- the velocity and acceleration the saccade loops compute from the
previous position, the new position, the previous time `t0`, the new
time `t1` and the previous velocity `v0`:
`s = sqrt(sx^2 + sy^2)`, `v1 = s / (t1 - t0)`, `a = (v1 - v0) / (t1 - t0)` -/
def stepVelAcc (prevpos newpos : Gaze) (t0 t1 v0 : ℚ) : ℚ × ℚ :=
  let s := psqrt ((newpos.1 - prevpos.1) ^ 2 + (newpos.2 - prevpos.2) ^ 2)
  let v1 := s / (t1 - t0)
  ((v1 : ℚ), (v1 - v0) / (t1 - t0))

/-- the weighted squared displacement `(sx/rms_x)^2 + (sy/rms_y)^2`
that `wait_for_saccade_start` compares against `weightdist` -/
def wdistOf (p : Params) (prevpos newpos : Gaze) : ℚ :=
  ((newpos.1 - prevpos.1) / p.pxdsttreshX) ^ 2
    + ((newpos.2 - prevpos.2) / p.pxdsttreshY) ^ 2

/-- the squared distance the fixation loops compare against
`pxfixtresh ** 2` -/
def distSq (spos npos : Gaze) : ℚ :=
  (npos.1 - spos.1) ^ 2 + (npos.2 - spos.2) ^ 2

/-- detection loop body of the heuristic `wait_for_saccade_start`.
Loop state is `(t0, v0, prevpos)`.  The weighted-distance check guards
the velocity computation; `prevpos` is updated on every valid, changed
sample, but `t0` and `v0` only when the movement is above the
noise floor.  Invalid or unchanged samples change nothing. -/
def saccStartBody (env : Env) (p : Params) :
    ℚ × ℚ × Gaze → TState → Ctr → BodyRes (ℚ × ℚ × Gaze) (ℚ × Gaze) :=
  fun st σ ctr =>
    match sample env σ ctr with
    | .error e => .fail e
    | .ok (newpos, σ1, ctr1) =>
      let t0 := st.1
      let v0 := st.2.1
      let prevpos := st.2.2
      let tc := get_time env ctr1
      let t1 := tc.1
      if is_valid_sample newpos ∧ newpos ≠ prevpos then
        if wdistOf p prevpos newpos > p.weightdist then
          let va := stepVelAcc prevpos newpos t0 t1 v0
          if va.1 > p.pxspdtresh ∨ va.2 > p.pxacctresh then
            let tc2 := get_time env tc.2
            .done (tc2.1, prevpos) σ1 tc2.2
          else .cont (t1, va.1, newpos) σ1 tc.2
        else .cont (t0, v0, newpos) σ1 tc.2
      else .cont (t0, v0, prevpos) σ1 tc.2

/-- heuristic branch of `wait_for_saccade_start`: acquire a first valid
sample, read `t0 = clock.get_time()`, then run the detection loop with
`v0 = 0`; returns `(stime, spos)` -/
def wait_for_saccade_start_pygaze (env : Env) (p : Params) (fuel : ℕ)
    (σ : TState) (ctr : Ctr) : RunRes (ℚ × Gaze) :=
  match pollValid env fuel σ ctr with
  | .ok newpos σ1 ctr1 =>
    let tc := get_time env ctr1
    runLoop (saccStartBody env p) fuel (tc.1, 0, newpos) σ1 tc.2
  | .err e => .err e
  | .out => .out

/-- detection loop body of the heuristic `wait_for_saccade_end`.
Loop state is `(t0, v0, prevpos)`.  Note that, unlike
`saccStartBody`, `prevpos` is overwritten with the newest sample on
every iteration, even when that sample is invalid or unchanged. -/
def saccEndBody (env : Env) (p : Params) :
    ℚ × ℚ × Gaze → TState → Ctr → BodyRes (ℚ × ℚ × Gaze) (ℚ × Gaze) :=
  fun st σ ctr =>
    match sample env σ ctr with
    | .error e => .fail e
    | .ok (newpos, σ1, ctr1) =>
      let t0 := st.1
      let v0 := st.2.1
      let prevpos := st.2.2
      let tc := get_time env ctr1
      let t1 := tc.1
      if is_valid_sample newpos ∧ newpos ≠ prevpos then
        let va := stepVelAcc prevpos newpos t0 t1 v0
        if va.1 < p.pxspdtresh ∧ (va.2 > -1 * p.pxacctresh ∧ va.2 < 0) then
          let tc2 := get_time env tc.2
          .done (tc2.1, newpos) σ1 tc2.2
        else .cont (t1, va.1, newpos) σ1 tc.2
      else .cont (t0, v0, newpos) σ1 tc.2

/-- heuristic branch of `wait_for_saccade_end`: wait for a saccade
start, reacquire a valid sample, seed `v0` from the distance to the
start position, then run the end-detection loop; returns
`(etime, spos, epos)` -/
def wait_for_saccade_end_pygaze (env : Env) (p : Params) (fuel : ℕ)
    (σ : TState) (ctr : Ctr) : RunRes (ℚ × Gaze × Gaze) :=
  match wait_for_saccade_start_pygaze env p fuel σ ctr with
  | .ok ts σ1 ctr1 =>
    let t0 := ts.1
    let spos := ts.2
    match pollValid env fuel σ1 ctr1 with
    | .ok prevpos σ2 ctr2 =>
      let tc := get_time env ctr2
      let s := psqrt ((prevpos.1 - spos.1) ^ 2 + (prevpos.2 - spos.2) ^ 2)
      let v0 := s / (tc.1 - t0)
      match runLoop (saccEndBody env p) fuel (t0, v0, prevpos) σ2 tc.2 with
      | .ok te σ3 ctr3 => .ok (te.1, spos, te.2) σ3 ctr3
      | .err e => .err e
      | .out => .out
    | .err e => .err e
    | .out => .out
  | .err e => .err e
  | .out => .out

/-- dwell loop body of the heuristic `wait_for_fixation_start`.
Loop state is `(spos, t0)`: the anchor position and the time it was
set.  A valid sample farther than `pxfixtresh` from the anchor resets
both; a close sample fires once `t1 - t0 ≥ fixtimetresh`. -/
def fixStartBody (env : Env) (p : Params) :
    Gaze × ℚ → TState → Ctr → BodyRes (Gaze × ℚ) (ℚ × Gaze) :=
  fun st σ ctr =>
    match sample env σ ctr with
    | .error e => .fail e
    | .ok (npos, σ1, ctr1) =>
      let spos := st.1
      let t0 := st.2
      if is_valid_sample npos then
        if distSq spos npos > p.pxfixtresh ^ 2 then
          let tc := get_time env ctr1
          .cont (npos, tc.1) σ1 tc.2
        else
          let tc := get_time env ctr1
          if tc.1 - t0 ≥ p.fixtimetresh then .done (tc.1, spos) σ1 tc.2
          else .cont (spos, t0) σ1 tc.2
      else .cont (spos, t0) σ1 ctr1

/-- heuristic branch of `wait_for_fixation_start`: anchor at the first
valid sample and its time, then run the dwell loop; returns
`(t1, spos)` -/
def wait_for_fixation_start_pygaze (env : Env) (p : Params) (fuel : ℕ)
    (σ : TState) (ctr : Ctr) : RunRes (ℚ × Gaze) :=
  match pollValid env fuel σ ctr with
  | .ok spos σ1 ctr1 =>
    let tc := get_time env ctr1
    runLoop (fixStartBody env p) fuel (spos, tc.1) σ1 tc.2
  | .err e => .err e
  | .out => .out

/-- deviation loop body of the heuristic `wait_for_fixation_end`: poll
until a valid sample deviates from the anchor by more than
`pxfixtresh` -/
def fixEndBody (env : Env) (p : Params) (spos : Gaze) :
    Unit → TState → Ctr → BodyRes Unit Unit :=
  fun _ σ ctr =>
    match sample env σ ctr with
    | .error e => .fail e
    | .ok (npos, σ1, ctr1) =>
      if is_valid_sample npos ∧ distSq spos npos > p.pxfixtresh ^ 2
      then .done () σ1 ctr1
      else .cont () σ1 ctr1

/-- heuristic branch of `wait_for_fixation_end`.  Note that the
`timeout` argument of the public operation is never consulted on this
branch: the function first waits for a fixation start, then polls until
the gaze deviates, with no timeout check anywhere. -/
def wait_for_fixation_end_pygaze (env : Env) (p : Params) (fuel : ℕ)
    (σ : TState) (ctr : Ctr) : RunRes (ℚ × Gaze) :=
  match wait_for_fixation_start_pygaze env p fuel σ ctr with
  | .ok ts σ1 ctr1 =>
    match runLoop (fixEndBody env p ts.2) fuel () σ1 ctr1 with
    | .ok _ σ2 ctr2 =>
      let tc := get_time env ctr2
      .ok (tc.1, ts.2) σ2 tc.2
    | .err e => .err e
    | .out => .out
  | .err e => .err e
  | .out => .out

/-- inner loop body of the heuristic `wait_for_blink_start`: while
samples stay invalid, return the candidate `t0` once
`clock.get_time() - t0 ≥ blink_threshold`; a valid sample abandons the
candidate (`done none`) -/
def blinkInnerBody (env : Env) (p : Params) (t0 : ℚ) :
    Unit → TState → Ctr → BodyRes Unit (Option ℚ) :=
  fun _ σ ctr =>
    match sample env σ ctr with
    | .error e => .fail e
    | .ok (g, σ1, ctr1) =>
      if is_valid_sample g then .done none σ1 ctr1
      else
        let tc := get_time env ctr1
        if tc.1 - t0 ≥ p.blink_threshold then .done (some t0) σ1 tc.2
        else .cont () σ1 tc.2

/-- outer loop body of the heuristic `wait_for_blink_start`: poll until
an invalid sample, record the candidate start time, then run the inner
confirmation loop -/
def blinkOuterBody (env : Env) (p : Params) (fuel : ℕ) :
    Unit → TState → Ctr → BodyRes Unit ℚ :=
  fun _ σ ctr =>
    match sample env σ ctr with
    | .error e => .fail e
    | .ok (g, σ1, ctr1) =>
      if is_valid_sample g then .cont () σ1 ctr1
      else
        let tc := get_time env ctr1
        match runLoop (blinkInnerBody env p tc.1) fuel () σ1 tc.2 with
        | .ok none σ2 ctr2 => .cont () σ2 ctr2
        | .ok (some t) σ2 ctr2 => .done t σ2 ctr2
        | .err e => .fail e
        | .out => .spin

/-- heuristic branch of `wait_for_blink_start`; returns the confirmed
candidate start timestamp -/
def wait_for_blink_start_pygaze (env : Env) (p : Params) (fuel : ℕ)
    (σ : TState) (ctr : Ctr) : RunRes ℚ :=
  runLoop (blinkOuterBody env p fuel) fuel () σ ctr

/-- loop body of the heuristic `wait_for_blink_end`: poll until a valid
sample reappears -/
def blinkEndBody (env : Env) : Unit → TState → Ctr → BodyRes Unit Unit :=
  fun _ σ ctr =>
    match sample env σ ctr with
    | .error e => .fail e
    | .ok (g, σ1, ctr1) =>
      if is_valid_sample g then .done () σ1 ctr1 else .cont () σ1 ctr1

/-- heuristic branch of `wait_for_blink_end`; returns
`clock.get_time()` read after the loop exits -/
def wait_for_blink_end_pygaze (env : Env) (fuel : ℕ) (σ : TState)
    (ctr : Ctr) : RunRes ℚ :=
  match runLoop (blinkEndBody env) fuel () σ ctr with
  | .ok _ σ1 ctr1 =>
    let tc := get_time env ctr1
    .ok tc.1 σ1 tc.2
  | .err e => .err e
  | .out => .out

/-- the timeout check at the bottom of each iteration of the native
`wait_for_event` loop: with no timeout just continue; with a timeout,
read the clock and return the `(None, None)` sentinel (modelled as
`none`) once `clock.get_time() - t0 > timeout` -/
def nativeTimeoutStep (env : Env) (timeout : Option ℚ) (t0 : ℚ)
    (σ : TState) (ctr : Ctr) : BodyRes Unit (Option (ℚ × FloatData)) :=
  match timeout with
  | none => .cont () σ ctr
  | some tmo =>
    let tc := get_time env ctr
    if tc.1 - t0 > tmo then .done none σ tc.2 else .cont () σ tc.2

/-- loop body of the native branch of `wait_for_event`: poll
`getNextData()`; on a matching code, fetch the event record and return
it when its clock-corrected time is fresher than `t0`; otherwise fall
through to the timeout check -/
def nativeEventBody (env : Env) (event : ℤ) (timeout : Option ℚ)
    (t0 : ℚ) : Unit → TState → Ctr → BodyRes Unit (Option (ℚ × FloatData)) :=
  fun _ σ ctr =>
    let dc := getNextData env ctr
    if dc.1 = event then
      let fd := getFloatData env dc.2
      let asy := eyelink_clock_async env fd.2
      let tc := fd.1.time - asy.1
      if tc > t0 then .done (some (tc, fd.1)) σ asy.2
      else nativeTimeoutStep env timeout t0 σ asy.2
    else nativeTimeoutStep env timeout t0 σ dc.2

/-- the native branch of `wait_for_event`, entry checks included:
raises when not recording, resolves the eye if unset, reads
`t0 = clock.get_time()` and runs the event-polling loop.  Returns
`some (tc, float_data)` on a fresh matching event and `none` for the
`(None, None)` timeout sentinel. -/
def wait_for_event_native (env : Env) (fuel : ℕ) (event : ℤ)
    (timeout : Option ℚ) (σ : TState) (ctr : Ctr) :
    RunRes (Option (ℚ × FloatData)) :=
  if σ.recording = false then .err .notRecording else
  let σ1 : TState := { σ with eyeUsed := some (σ.eyeUsed.getD env.availEye) }
  let tc := get_time env ctr
  runLoop (nativeEventBody env event timeout tc.1) fuel () σ1 tc.2

/-- the Python-level return value of a `wait_for_*` operation, one
constructor per tuple shape occurring in the source -/
inductive EventResult where
  | pair (t : ℚ) (p : Gaze)
  | triple (t t2 : ℚ) (p : Gaze)
  | pairPos2 (t : ℚ) (p q : Gaze)
  | timeData (r : Option (ℚ × FloatData))
  | timeTime (t t2 : ℚ)
  | single (t : ℚ)
  deriving DecidableEq

/-- the arity of the returned Python tuple: a bare scalar counts as 1,
`(t, pos)` as 2, `(t, spos, epos)` as 3, and the `(None, None)`
sentinel as 2 -/
def pyShape : EventResult → ℕ
  | .pair _ _ => 2
  | .triple _ _ _ => 3
  | .pairPos2 _ _ _ => 3
  | .timeData _ => 2
  | .timeTime _ _ => 2
  | .single _ => 1

/-- `libeyelink.wait_for_saccade_start`: native mode returns
`(t, d.getStartGaze())`; heuristic mode returns `(stime, spos)` -/
def wait_for_saccade_start (env : Env) (p : Params) (mode : Mode)
    (fuel : ℕ) (σ : TState) (ctr : Ctr) : RunRes EventResult :=
  match mode with
  | .native =>
    match wait_for_event_native env fuel STARTSACC none σ ctr with
    | .ok (some td) σ1 ctr1 => .ok (.pair td.1 td.2.startGaze) σ1 ctr1
    | .ok none _ _ => .err .noneData
    | .err e => .err e
    | .out => .out
  | .pygaze =>
    (wait_for_saccade_start_pygaze env p fuel σ ctr).map
      (fun r => .pair r.1 r.2)

/-- `libeyelink.wait_for_saccade_end`: native mode returns
`(t, d.getStartGaze(), d.getEndGaze())`; heuristic mode returns
`(etime, spos, epos)` -/
def wait_for_saccade_end (env : Env) (p : Params) (mode : Mode)
    (fuel : ℕ) (σ : TState) (ctr : Ctr) : RunRes EventResult :=
  match mode with
  | .native =>
    match wait_for_event_native env fuel ENDSACC none σ ctr with
    | .ok (some td) σ1 ctr1 =>
      .ok (.pairPos2 td.1 td.2.startGaze td.2.endGaze) σ1 ctr1
    | .ok none _ _ => .err .noneData
    | .err e => .err e
    | .out => .out
  | .pygaze =>
    (wait_for_saccade_end_pygaze env p fuel σ ctr).map
      (fun r => .pairPos2 r.1 r.2.1 r.2.2)

/-- `libeyelink.wait_for_fixation_start`: native mode returns the
3-tuple `(t, d.getTime(), d.getStartGaze())`; heuristic mode returns
the 2-tuple `(t1, spos)` -/
def wait_for_fixation_start (env : Env) (p : Params) (mode : Mode)
    (fuel : ℕ) (σ : TState) (ctr : Ctr) : RunRes EventResult :=
  match mode with
  | .native =>
    match wait_for_event_native env fuel STARTFIX none σ ctr with
    | .ok (some td) σ1 ctr1 =>
      .ok (.triple td.1 td.2.time td.2.startGaze) σ1 ctr1
    | .ok none _ _ => .err .noneData
    | .err e => .err e
    | .out => .out
  | .pygaze =>
    (wait_for_fixation_start_pygaze env p fuel σ ctr).map
      (fun r => .pair r.1 r.2)

/-- `libeyelink.wait_for_fixation_end`: native mode forwards the
timeout to `wait_for_event` and returns `(timestamp, event_data)`
(possibly `(None, None)`); heuristic mode ignores the timeout argument
entirely and returns `(clock.get_time(), spos)` -/
def wait_for_fixation_end (env : Env) (p : Params) (mode : Mode)
    (fuel : ℕ) (timeout : Option ℚ) (σ : TState) (ctr : Ctr) :
    RunRes EventResult :=
  match mode with
  | .native =>
    (wait_for_event_native env fuel ENDFIX timeout σ ctr).map .timeData
  | .pygaze =>
    (wait_for_fixation_end_pygaze env p fuel σ ctr).map
      (fun r => .pair r.1 r.2)

/-- `libeyelink.wait_for_blink_start`: native mode returns the pair
`(t, d.getTime())`; heuristic mode returns the bare timestamp `t0` -/
def wait_for_blink_start (env : Env) (p : Params) (mode : Mode)
    (fuel : ℕ) (σ : TState) (ctr : Ctr) : RunRes EventResult :=
  match mode with
  | .native =>
    match wait_for_event_native env fuel STARTBLINK none σ ctr with
    | .ok (some td) σ1 ctr1 => .ok (.timeTime td.1 td.2.time) σ1 ctr1
    | .ok none _ _ => .err .noneData
    | .err e => .err e
    | .out => .out
  | .pygaze =>
    (wait_for_blink_start_pygaze env p fuel σ ctr).map .single

/-- `libeyelink.wait_for_blink_end`: both modes return a bare
timestamp -/
def wait_for_blink_end (env : Env) (p : Params) (mode : Mode)
    (fuel : ℕ) (σ : TState) (ctr : Ctr) : RunRes EventResult :=
  match mode with
  | .native =>
    match wait_for_event_native env fuel ENDBLINK none σ ctr with
    | .ok (some td) σ1 ctr1 => .ok (.single td.1) σ1 ctr1
    | .ok none _ _ => .err .noneData
    | .err e => .err e
    | .out => .out
  | .pygaze =>
    (wait_for_blink_end_pygaze env fuel σ ctr).map .single

/-- a raw sample that is a right-eye and left-eye sample carrying the
given gaze on both eyes -/
def rawOf (g : Gaze) : RawSample := ⟨true, true, g, g⟩

/-- all call counters at zero -/
def ctr0 : Ctr := ⟨0, 0, 0, 0, 0⟩

/-- an object state with recording started and the right eye in use,
as after `start_recording` and `set_eye_used` -/
def recState : TState := ⟨true, some 1, (-1, -1), -1⟩

/-- thresholds used by the concrete runs: unit RMS noise floor,
`weightdist = 10` (the source default), velocity threshold 35,
acceleration threshold 9500, fixation radius 5, fixation dwell 2,
blink threshold 2 -/
def cParams : Params := ⟨1, 1, 10, 35, 9500, 5, 2, 2⟩

/-- a clock that advances one millisecond per read -/
def tickClk : ℕ → ℚ := fun j => (j : ℚ)

/-- thresholds for the concrete saccade runs: like `cParams` but with
velocity threshold 2, so that the jump below trips the detector -/
def sParams : Params := ⟨1, 1, 10, 2, 9500, 5, 2, 2⟩

/-- feed for a saccade run: a jump from `(2, 2)` to `(5, 6)`, then a
settling step to `(28/5, 34/5)` -/
def saccGaze : ℕ → Gaze := fun i =>
  if i = 0 then (2, 2)
  else if i ≤ 2 then (5, 6)
  else (28 / 5, 34 / 5)

def envSacc : Env :=
  ⟨fun i => some (rawOf (saccGaze i)), tickClk, fun _ => 0,
    fun _ => ⟨0, (0, 0), (0, 0)⟩, fun _ => 0, 1⟩

/-- feed for a fixation run: three samples at `(100, 100)`, then the
gaze jumps to `(200, 200)` -/
def fixGaze : ℕ → Gaze := fun i =>
  if i ≤ 2 then (100, 100) else (200, 200)

def envFix : Env :=
  ⟨fun i => some (rawOf (fixGaze i)), tickClk, fun _ => 0,
    fun _ => ⟨0, (0, 0), (0, 0)⟩, fun _ => 0, 1⟩

/-- feed for a fixation that never ends: the gaze never moves -/
def envFixHold : Env :=
  ⟨fun _ => some (rawOf (100, 100)), tickClk, fun _ => 0,
    fun _ => ⟨0, (0, 0), (0, 0)⟩, fun _ => 0, 1⟩

/-- feed for a blink-start run: every sample is invalid -/
def envBlinkS : Env :=
  ⟨fun _ => some (rawOf (-1, -1)), tickClk, fun _ => 0,
    fun _ => ⟨0, (0, 0), (0, 0)⟩, fun _ => 0, 1⟩

/-- feed for a blink-end run: a valid sample is available at once -/
def envBlinkE : Env :=
  ⟨fun _ => some (rawOf (5, 5)), tickClk, fun _ => 0,
    fun _ => ⟨0, (0, 0), (0, 0)⟩, fun _ => 0, 1⟩

/-- native-mode environment: `getNextData()` always reports the given
event code, the event record has tracker time 100, start gaze
`(10, 10)` and end gaze `(20, 20)`, and `trackerTime()` reads 100 -/
def envNat (code : ℤ) : Env :=
  ⟨fun _ => none, tickClk, fun _ => code,
    fun _ => ⟨100, (10, 10), (20, 20)⟩, fun _ => 100, 1⟩

/-- the Python tuple arity of a finished run, `none` when the run did
not return a value -/
def resShape : RunRes EventResult → Option ℕ
  | .ok r _ _ => some (pyShape r)
  | .err _ => none
  | .out => none

/-- environment in which the tracker delivers one sample matching
neither eye and then never has a new sample again -/
def envNoNew : Env :=
  ⟨fun i => if i = 0 then some ⟨false, false, (9, 9), (9, 9)⟩ else none,
    tickClk, fun _ => 0, fun _ => ⟨0, (0, 0), (0, 0)⟩, fun _ => 0, 1⟩

/-- an object state whose last known valid gaze position is `(55, 66)` -/
def c8State : TState := ⟨true, some 1, (55, 66), -1⟩

/-- the heuristic `wait_for_fixation_end`, called with a 10 ms timeout
on a gaze that holds still forever under a clock that advances 1 ms per
read, is still polling after any number of iterations: the timeout
argument never makes it return -/
def fixEndStuckOnTimeout : Prop :=
  ∀ fuel, wait_for_fixation_end envFixHold cParams .pygaze fuel (some 10)
    recState ctr0 = .out

/-- below-noise drift: the gaze creeps half a pixel per poll along the
x axis, so every per-step weighted distance is `1/4`, far below the
`weightdist` of 10 -/
def gW : ℕ → Gaze := fun i => ((i : ℚ) / 2 + 2, 3)

def envNoise : Env :=
  ⟨fun i => some (rawOf (gW i)), tickClk, fun _ => 0,
    fun _ => ⟨0, (0, 0), (0, 0)⟩, fun _ => 0, 1⟩

/-- a stream whose first sample is the invalid sentinel and whose later
samples sit at `(9, 12)` -/
def gMix : ℕ → Gaze := fun i => if i = 0 then (-1, -1) else (9, 12)

def envMix : Env :=
  ⟨fun i => some (rawOf (gMix i)), tickClk, fun _ => 0,
    fun _ => ⟨0, (0, 0), (0, 0)⟩, fun _ => 0, 1⟩

/-- a blink: three invalid samples, then valid gaze at `(6, 7)` -/
def gBlink : ℕ → Gaze := fun i => if i < 3 then (-1, -1) else (6, 7)

def envBlink : Env :=
  ⟨fun i => some (rawOf (gBlink i)), tickClk, fun _ => 0,
    fun _ => ⟨0, (0, 0), (0, 0)⟩, fun _ => 0, 1⟩

/-- the object-state component of one `sample()` poll at feed index
`sIdx`: exactly the per-poll bookkeeping of `libeyelink.sample` -/
def sampleState (env : Env) (σ : TState) (sIdx : ℕ) : TState :=
  let eye := σ.eyeUsed.getD env.availEye
  let σ1 : TState := { σ with eyeUsed := some eye }
  match env.feed sIdx with
  | some s => { σ1 with prevsample := resolveGaze eye s }
  | none => σ1

/-- the object state produced by running the per-poll sample
bookkeeping alone, `k` polls starting at feed index `sIdx` -/
def pollFoldS (env : Env) : ℕ → TState → ℕ → TState
  | 0, σ, _ => σ
  | k + 1, σ, sIdx => pollFoldS env k (sampleState env σ sIdx) (sIdx + 1)

/-- the final object state is what per-poll sample bookkeeping alone
produces, with the sample counter advanced by exactly the number of
polls made -/
def ViaPolls (env : Env) (σ : TState) (ctr : Ctr) (σ1 : TState)
    (ctr1 : Ctr) : Prop :=
  ∃ k, σ1 = pollFoldS env k σ ctr.s ∧ ctr1.s = ctr.s + k

/-- the body of a polling loop moves the object state only through
per-poll sample bookkeeping -/
def BodyVia (env : Env) (body : α → TState → Ctr → BodyRes α β) : Prop :=
  ∀ a σ ctr,
    (∀ a1 σ1 ctr1, body a σ ctr = .cont a1 σ1 ctr1 →
      ViaPolls env σ ctr σ1 ctr1) ∧
    (∀ b σ1 ctr1, body a σ ctr = .done b σ1 ctr1 →
      ViaPolls env σ ctr σ1 ctr1)

/-- overwrite the pupil-size cache `self.prevps` -/
def setPs (σ : TState) (q : ℚ) : TState := { σ with prevps := q }

def RunRes.withPs (q : ℚ) : RunRes β → RunRes β
  | .ok b σ ctr => .ok b (setPs σ q) ctr
  | .err e => .err e
  | .out => .out

def BodyRes.mapPs (q : ℚ) : BodyRes α β → BodyRes α β
  | .cont a σ ctr => .cont a (setPs σ q) ctr
  | .done b σ ctr => .done b (setPs σ q) ctr
  | .fail e => .fail e
  | .spin => .spin

/-- the body of a polling loop neither reads nor writes `prevps` -/
def BodyPs (body : α → TState → Ctr → BodyRes α β) : Prop :=
  ∀ a σ ctr q, body a (setPs σ q) ctr = (body a σ ctr).mapPs q

/-- the frame property of one wait operation: every successful return
leaves the object state exactly as the per-poll `sample()` bookkeeping
alone would (so in particular `prevps` is untouched), and the outcome
is oblivious to the `prevps` value left behind by any earlier call -/
def OpFrame (env : Env) (op : TState → Ctr → RunRes β) : Prop :=
  (∀ σ ctr r σ1 ctr1, op σ ctr = .ok r σ1 ctr1 →
    ViaPolls env σ ctr σ1 ctr1 ∧ σ1.prevps = σ.prevps) ∧
  (∀ σ ctr q, op (setPs σ q) ctr = (op σ ctr).withPs q)

theorem map_ok {α β : Type} {f : α → β} {x : RunRes α} {b : β} {σ : TState}
    {c : Ctr} (h : x.map f = .ok b σ c) : ∃ a, b = f a ∧ x = .ok a σ c := by
  cases x with
  | ok a σ2 c2 =>
    simp only [RunRes.map, RunRes.ok.injEq] at h
    exact ⟨a, h.1.symm, by simp [h.2.1, h.2.2]⟩
  | err e => simp [RunRes.map] at h
  | out => simp [RunRes.map] at h

/-- C2: the claim that every one of the six wait operations returns the
same tuple shape in both modes is false at these concrete runs:
`wait_for_fixation_start` returns a 3-tuple in native mode but a
2-tuple in heuristic mode, and `wait_for_blink_start` returns a pair in
native mode but a bare timestamp in heuristic mode. -/
theorem C2_counterexample :
    resShape (wait_for_fixation_start (envNat 7) cParams .native 5
      recState ctr0) = some 3 ∧
    resShape (wait_for_fixation_start envFix cParams .pygaze 20
      recState ctr0) = some 2 ∧
    resShape (wait_for_blink_start (envNat 3) cParams .native 5
      recState ctr0) = some 2 ∧
    resShape (wait_for_blink_start envBlinkS cParams .pygaze 20
      recState ctr0) = some 1 ∧ (3 : ℕ) ≠ 2 ∧ (2 : ℕ) ≠ 1 := by
  refine ⟨?_, ?_, ?_, ?_, by norm_num, by norm_num⟩
  · norm_num [resShape, pyShape, wait_for_fixation_start,
      wait_for_event_native, runLoop, nativeEventBody, nativeTimeoutStep,
      getNextData, getFloatData, trackerTime, eyelink_clock_async,
      get_time, envNat, tickClk, recState, ctr0, STARTFIX,
      Ctr.bumpC, Ctr.bumpD, Ctr.bumpF, Ctr.bumpTT]
  · norm_num [resShape, pyShape, wait_for_fixation_start,
      wait_for_fixation_start_pygaze, pollValid, runLoop, pollValidBody,
      fixStartBody, distSq, sample, envFix, fixGaze, rawOf, resolveGaze,
      is_valid_sample, get_time, tickClk, cParams, recState, ctr0,
      RunRes.map, Ctr.bumpS, Ctr.bumpC]
  · norm_num [resShape, pyShape, wait_for_blink_start,
      wait_for_event_native, runLoop, nativeEventBody, nativeTimeoutStep,
      getNextData, getFloatData, trackerTime, eyelink_clock_async,
      get_time, envNat, tickClk, recState, ctr0, STARTBLINK,
      Ctr.bumpC, Ctr.bumpD, Ctr.bumpF, Ctr.bumpTT]
  · norm_num [resShape, pyShape, wait_for_blink_start,
      wait_for_blink_start_pygaze, runLoop, blinkOuterBody,
      blinkInnerBody, sample, envBlinkS, rawOf, resolveGaze,
      is_valid_sample, get_time, tickClk, cParams, recState, ctr0,
      RunRes.map, Ctr.bumpS, Ctr.bumpC]

/-- C2 (amended): each wait operation returns a fixed tuple shape, and
for `wait_for_saccade_start` (2), `wait_for_saccade_end` (3),
`wait_for_fixation_end` (2) and `wait_for_blink_end` (1) that shape is
the same in both modes; but `wait_for_fixation_start` returns arity 3
in native mode against 2 in heuristic mode, and `wait_for_blink_start`
arity 2 in native mode against 1 in heuristic mode. -/
theorem C2_shapes_amended (env : Env) (p : Params) (mode : Mode)
    (fuel : ℕ) (timeout : Option ℚ) (σ : TState) (ctr : Ctr) :
    (∀ r σ1 c1, wait_for_saccade_start env p mode fuel σ ctr = .ok r σ1 c1 →
      pyShape r = 2) ∧
    (∀ r σ1 c1, wait_for_saccade_end env p mode fuel σ ctr = .ok r σ1 c1 →
      pyShape r = 3) ∧
    (∀ r σ1 c1,
      wait_for_fixation_end env p mode fuel timeout σ ctr = .ok r σ1 c1 →
      pyShape r = 2) ∧
    (∀ r σ1 c1, wait_for_blink_end env p mode fuel σ ctr = .ok r σ1 c1 →
      pyShape r = 1) ∧
    (∀ r σ1 c1,
      wait_for_fixation_start env p .native fuel σ ctr = .ok r σ1 c1 →
      pyShape r = 3) ∧
    (∀ r σ1 c1,
      wait_for_fixation_start env p .pygaze fuel σ ctr = .ok r σ1 c1 →
      pyShape r = 2) ∧
    (∀ r σ1 c1,
      wait_for_blink_start env p .native fuel σ ctr = .ok r σ1 c1 →
      pyShape r = 2) ∧
    (∀ r σ1 c1,
      wait_for_blink_start env p .pygaze fuel σ ctr = .ok r σ1 c1 →
      pyShape r = 1) := by
  refine ⟨?_, ?_, ?_, ?_, ?_, ?_, ?_, ?_⟩ <;> intro r σ1 c1 h
  · cases mode with
    | native =>
      simp only [wait_for_saccade_start] at h
      cases hx : wait_for_event_native env fuel STARTSACC none σ ctr with
      | ok td σ2 c2 =>
        rw [hx] at h
        cases td with
        | none => simp at h
        | some v =>
          simp only [RunRes.ok.injEq] at h
          rw [← h.1]
          rfl
      | err e => rw [hx] at h; simp at h
      | out => rw [hx] at h; simp at h
    | pygaze =>
      simp only [wait_for_saccade_start] at h
      obtain ⟨a, rfl, -⟩ := map_ok h
      rfl
  · cases mode with
    | native =>
      simp only [wait_for_saccade_end] at h
      cases hx : wait_for_event_native env fuel ENDSACC none σ ctr with
      | ok td σ2 c2 =>
        rw [hx] at h
        cases td with
        | none => simp at h
        | some v =>
          simp only [RunRes.ok.injEq] at h
          rw [← h.1]
          rfl
      | err e => rw [hx] at h; simp at h
      | out => rw [hx] at h; simp at h
    | pygaze =>
      simp only [wait_for_saccade_end] at h
      obtain ⟨a, rfl, -⟩ := map_ok h
      rfl
  · cases mode with
    | native =>
      simp only [wait_for_fixation_end] at h
      obtain ⟨a, rfl, -⟩ := map_ok h
      rfl
    | pygaze =>
      simp only [wait_for_fixation_end] at h
      obtain ⟨a, rfl, -⟩ := map_ok h
      rfl
  · cases mode with
    | native =>
      simp only [wait_for_blink_end] at h
      cases hx : wait_for_event_native env fuel ENDBLINK none σ ctr with
      | ok td σ2 c2 =>
        rw [hx] at h
        cases td with
        | none => simp at h
        | some v =>
          simp only [RunRes.ok.injEq] at h
          rw [← h.1]
          rfl
      | err e => rw [hx] at h; simp at h
      | out => rw [hx] at h; simp at h
    | pygaze =>
      simp only [wait_for_blink_end] at h
      obtain ⟨a, rfl, -⟩ := map_ok h
      rfl
  · simp only [wait_for_fixation_start] at h
    cases hx : wait_for_event_native env fuel STARTFIX none σ ctr with
    | ok td σ2 c2 =>
      rw [hx] at h
      cases td with
      | none => simp at h
      | some v =>
        simp only [RunRes.ok.injEq] at h
        rw [← h.1]
        rfl
    | err e => rw [hx] at h; simp at h
    | out => rw [hx] at h; simp at h
  · simp only [wait_for_fixation_start] at h
    obtain ⟨a, rfl, -⟩ := map_ok h
    rfl
  · simp only [wait_for_blink_start] at h
    cases hx : wait_for_event_native env fuel STARTBLINK none σ ctr with
    | ok td σ2 c2 =>
      rw [hx] at h
      cases td with
      | none => simp at h
      | some v =>
        simp only [RunRes.ok.injEq] at h
        rw [← h.1]
        rfl
    | err e => rw [hx] at h; simp at h
    | out => rw [hx] at h; simp at h
  · simp only [wait_for_blink_start] at h
    obtain ⟨a, rfl, -⟩ := map_ok h
    rfl

theorem C2_shapes_amended_witness :
    pyShape (EventResult.triple 1 100 (10, 10)) = 3 ∧
    pyShape (EventResult.pair 2 (100, 100)) = 2 ∧
    pyShape (EventResult.pairPos2 5 (2, 2) (28 / 5, 34 / 5)) = 3 := by
  refine ⟨?_, ?_, ?_⟩
  · refine (C2_shapes_amended (envNat 7) cParams .native 5 none recState
      ctr0).2.2.2.2.1 (.triple 1 100 (10, 10)) recState ⟨0, 2, 1, 1, 1⟩ ?_
    norm_num [wait_for_fixation_start, wait_for_event_native, runLoop,
      nativeEventBody, nativeTimeoutStep, getNextData, getFloatData,
      trackerTime, eyelink_clock_async, get_time, envNat, tickClk,
      recState, ctr0, STARTFIX, Ctr.bumpC, Ctr.bumpD, Ctr.bumpF,
      Ctr.bumpTT]
  · refine (C2_shapes_amended envFix cParams .pygaze 20 none recState
      ctr0).2.2.2.2.2.1 (.pair 2 (100, 100))
      ⟨true, some 1, (100, 100), -1⟩ ⟨3, 3, 0, 0, 0⟩ ?_
    norm_num [wait_for_fixation_start, wait_for_fixation_start_pygaze,
      pollValid, runLoop, pollValidBody, fixStartBody, distSq, sample, envFix,
      fixGaze, rawOf, resolveGaze, is_valid_sample, get_time, tickClk,
      cParams, recState, ctr0, RunRes.map, Ctr.bumpS, Ctr.bumpC]
  · refine (C2_shapes_amended envSacc sParams .pygaze 20 none recState
      ctr0).2.1 (.pairPos2 5 (2, 2) (28 / 5, 34 / 5))
      ⟨true, some 1, (28 / 5, 34 / 5), -1⟩ ⟨4, 6, 0, 0, 0⟩ ?_
    norm_num [wait_for_saccade_end, wait_for_saccade_end_pygaze,
      wait_for_saccade_start_pygaze, pollValid, runLoop, pollValidBody,
      saccStartBody, saccEndBody, stepVelAcc, wdistOf, psqrt, natSqrt,
      natSqrtAux,
      sample, envSacc, saccGaze, rawOf, resolveGaze, is_valid_sample,
      get_time, tickClk, sParams, recState, ctr0, RunRes.map, Ctr.bumpS,
      Ctr.bumpC]

/-- C3: every one of the six wait operations, in both the heuristic and
the native mode, raises the not-recording error instead of returning
event data when `self.recording` is false.  In native mode the check is
the guard at the top of `wait_for_event`; in heuristic mode it is the
guard at the top of the first `self.sample()` poll, reached on the
first loop iteration. -/
theorem C3_not_recording (env : Env) (p : Params) (fuel : ℕ)
    (timeout : Option ℚ) (σ : TState) (ctr : Ctr)
    (h : σ.recording = false) (hf : 0 < fuel) :
    wait_for_saccade_start env p .native fuel σ ctr = .err .notRecording ∧
    wait_for_saccade_start env p .pygaze fuel σ ctr = .err .notRecording ∧
    wait_for_saccade_end env p .native fuel σ ctr = .err .notRecording ∧
    wait_for_saccade_end env p .pygaze fuel σ ctr = .err .notRecording ∧
    wait_for_fixation_start env p .native fuel σ ctr = .err .notRecording ∧
    wait_for_fixation_start env p .pygaze fuel σ ctr = .err .notRecording ∧
    wait_for_fixation_end env p .native fuel timeout σ ctr
      = .err .notRecording ∧
    wait_for_fixation_end env p .pygaze fuel timeout σ ctr
      = .err .notRecording ∧
    wait_for_blink_start env p .native fuel σ ctr = .err .notRecording ∧
    wait_for_blink_start env p .pygaze fuel σ ctr = .err .notRecording ∧
    wait_for_blink_end env p .native fuel σ ctr = .err .notRecording ∧
    wait_for_blink_end env p .pygaze fuel σ ctr = .err .notRecording := by
  obtain ⟨n, rfl⟩ : ∃ n, fuel = n + 1 := ⟨fuel - 1, by omega⟩
  have hs : sample env σ ctr = .error .notRecording := by
    simp [sample, h]
  have hpv : pollValid env (n + 1) σ ctr = .err .notRecording := by
    simp [pollValid, runLoop, pollValidBody, hs]
  have hnat : ∀ ev tmo, wait_for_event_native env (n + 1) ev tmo σ ctr
      = .err .notRecording := by
    intro ev tmo
    simp [wait_for_event_native, h]
  refine ⟨?_, ?_, ?_, ?_, ?_, ?_, ?_, ?_, ?_, ?_, ?_, ?_⟩
  · simp [wait_for_saccade_start, hnat]
  · simp [wait_for_saccade_start, wait_for_saccade_start_pygaze, hpv,
      RunRes.map]
  · simp [wait_for_saccade_end, hnat]
  · simp [wait_for_saccade_end, wait_for_saccade_end_pygaze,
      wait_for_saccade_start_pygaze, hpv, RunRes.map]
  · simp [wait_for_fixation_start, hnat]
  · simp [wait_for_fixation_start, wait_for_fixation_start_pygaze, hpv,
      RunRes.map]
  · simp [wait_for_fixation_end, hnat, RunRes.map]
  · simp [wait_for_fixation_end, wait_for_fixation_end_pygaze,
      wait_for_fixation_start_pygaze, hpv, RunRes.map]
  · simp [wait_for_blink_start, hnat]
  · simp [wait_for_blink_start, wait_for_blink_start_pygaze, runLoop,
      blinkOuterBody, hs, RunRes.map]
  · simp [wait_for_blink_end, hnat]
  · simp [wait_for_blink_end, wait_for_blink_end_pygaze, runLoop,
      blinkEndBody, hs, RunRes.map]

theorem C3_not_recording_witness :
    wait_for_saccade_start envSacc sParams .pygaze 5
      ⟨false, none, (-1, -1), -1⟩ ctr0 = .err .notRecording ∧
    wait_for_blink_end envSacc sParams .native 5
      ⟨false, none, (-1, -1), -1⟩ ctr0 = .err .notRecording := by
  have hc := C3_not_recording envSacc sParams 5 none
    ⟨false, none, (-1, -1), -1⟩ ctr0 rfl (by norm_num)
  exact ⟨hc.2.1, hc.2.2.2.2.2.2.2.2.2.2.1⟩

/-- C8: the claim that the no-new-sample fallback of `sample()` never
repeats the invalid sentinel is false.  In `envNoNew` the first poll
delivers a sample matching neither eye, so `sample()` stores the
sentinel into `self.prevsample`; on the second poll the tracker has no
new sample and `sample()` returns that stored sentinel `(-1, -1)`,
even though the last known valid position was `(55, 66)`. -/
theorem C8_counterexample :
    sample envNoNew c8State ctr0
      = .ok ((-1, -1), ⟨true, some 1, (-1, -1), -1⟩, ⟨1, 0, 0, 0, 0⟩) ∧
    sample envNoNew ⟨true, some 1, (-1, -1), -1⟩ ⟨1, 0, 0, 0, 0⟩
      = .ok ((-1, -1), ⟨true, some 1, (-1, -1), -1⟩, ⟨2, 0, 0, 0, 0⟩) ∧
    envNoNew.feed 1 = none ∧ c8State.prevsample = (55, 66) := by
  refine ⟨?_, ?_, by norm_num [envNoNew], by norm_num [c8State]⟩ <;>
    norm_num [sample, envNoNew, c8State, resolveGaze, Ctr.bumpS, ctr0]

/-- C8 (amended): while recording, a `sample()` poll on which the
tracker reports no new sample returns `self.prevsample` — the last
gaze the poll stored, which may itself be the sentinel — and a poll
that delivers a sample matching neither the right nor the left eye
reports exactly the sentinel `(-1, -1)`, never a fabricated
position. -/
theorem C8_sample_fallback (env : Env) (σ : TState) (ctr : Ctr)
    (h : σ.recording = true) :
    (env.feed ctr.s = none →
      sample env σ ctr = .ok (σ.prevsample,
        { σ with eyeUsed := some (σ.eyeUsed.getD env.availEye) },
        ctr.bumpS)) ∧
    (∀ raw, env.feed ctr.s = some raw →
      sample env σ ctr
        = .ok (resolveGaze (σ.eyeUsed.getD env.availEye) raw,
          { σ with eyeUsed := some (σ.eyeUsed.getD env.availEye),
                   prevsample :=
                     resolveGaze (σ.eyeUsed.getD env.availEye) raw },
          ctr.bumpS) ∧
      (¬(σ.eyeUsed.getD env.availEye = 1 ∧ raw.isRight) →
        ¬(σ.eyeUsed.getD env.availEye = 0 ∧ raw.isLeft) →
        resolveGaze (σ.eyeUsed.getD env.availEye) raw = (-1, -1))) := by
  refine ⟨fun hn => ?_, fun raw hr => ⟨?_, fun h1 h2 => ?_⟩⟩
  · simp [sample, h, hn]
  · simp [sample, h, hr]
  · simp [resolveGaze, h1, h2]

theorem C8_sample_fallback_witness :
    sample envNoNew c8State ⟨1, 0, 0, 0, 0⟩
      = .ok ((55, 66), ⟨true, some 1, (55, 66), -1⟩, ⟨2, 0, 0, 0, 0⟩) := by
  have hc := (C8_sample_fallback envNoNew c8State ⟨1, 0, 0, 0, 0⟩ rfl).1
    (by norm_num [envNoNew])
  simpa [c8State, Ctr.bumpS] using hc

theorem runLoop_cont {α β : Type} {body : α → TState → Ctr → BodyRes α β}
    {a : α} {σ : TState} {ctr : Ctr} {a1 : α} {σ1 : TState} {ctr1 : Ctr}
    (h : body a σ ctr = .cont a1 σ1 ctr1) (fuel : ℕ) :
    runLoop body (fuel + 1) a σ ctr = runLoop body fuel a1 σ1 ctr1 := by
  rw [runLoop, h]

theorem runLoop_done {α β : Type} {body : α → TState → Ctr → BodyRes α β}
    {a : α} {σ : TState} {ctr : Ctr} {b : β} {σ1 : TState} {ctr1 : Ctr}
    (h : body a σ ctr = .done b σ1 ctr1) (fuel : ℕ) :
    runLoop body (fuel + 1) a σ ctr = .ok b σ1 ctr1 := by
  rw [runLoop, h]

theorem fixEndHold_out (fuel : ℕ) :
    ∀ (σ : TState) (ctr : Ctr), σ.recording = true → σ.eyeUsed = some 1 →
    runLoop (fixEndBody envFixHold cParams (100, 100)) fuel () σ ctr
      = .out := by
  induction fuel with
  | zero => intro σ ctr h he; rfl
  | succ n ih =>
    intro σ ctr h he
    have hb : fixEndBody envFixHold cParams (100, 100) () σ ctr
        = .cont () { σ with eyeUsed := some 1, prevsample := (100, 100) }
          ctr.bumpS := by
      norm_num [fixEndBody, distSq, sample, h, he, envFixHold, rawOf, resolveGaze,
        is_valid_sample, cParams]
    rw [runLoop_cont hb n]
    exact ih _ _ (by simp [h]) (by simp)

theorem fixStartHold_ok (n : ℕ) :
    wait_for_fixation_start_pygaze envFixHold cParams (n + 2) recState ctr0
      = .ok (2, (100, 100)) ⟨true, some 1, (100, 100), -1⟩
        ⟨3, 3, 0, 0, 0⟩ := by
  have hb0 : pollValidBody envFixHold () recState ctr0
      = .done (100, 100) ⟨true, some 1, (100, 100), -1⟩ ⟨1, 0, 0, 0, 0⟩ := by
    norm_num [pollValidBody, sample, envFixHold, rawOf, resolveGaze,
      is_valid_sample, recState, ctr0, Ctr.bumpS]
  have h1 : pollValid envFixHold (n + 2) recState ctr0
      = .ok (100, 100) ⟨true, some 1, (100, 100), -1⟩ ⟨1, 0, 0, 0, 0⟩ :=
    runLoop_done hb0 (n + 1)
  have hb1 : fixStartBody envFixHold cParams ((100, 100), 0)
      ⟨true, some 1, (100, 100), -1⟩ ⟨1, 1, 0, 0, 0⟩
      = .cont ((100, 100), 0) ⟨true, some 1, (100, 100), -1⟩
        ⟨2, 2, 0, 0, 0⟩ := by
    norm_num [fixStartBody, distSq, sample, envFixHold, rawOf, resolveGaze,
      is_valid_sample, get_time, tickClk, cParams, Ctr.bumpS, Ctr.bumpC]
  have hb2 : fixStartBody envFixHold cParams ((100, 100), 0)
      ⟨true, some 1, (100, 100), -1⟩ ⟨2, 2, 0, 0, 0⟩
      = .done (2, (100, 100)) ⟨true, some 1, (100, 100), -1⟩
        ⟨3, 3, 0, 0, 0⟩ := by
    norm_num [fixStartBody, distSq, sample, envFixHold, rawOf, resolveGaze,
      is_valid_sample, get_time, tickClk, cParams, Ctr.bumpS, Ctr.bumpC]
  have h2 : runLoop (fixStartBody envFixHold cParams) (n + 2)
      ((100, 100), 0) ⟨true, some 1, (100, 100), -1⟩ ⟨1, 1, 0, 0, 0⟩
      = .ok (2, (100, 100)) ⟨true, some 1, (100, 100), -1⟩
        ⟨3, 3, 0, 0, 0⟩ := by
    rw [runLoop_cont hb1 (n + 1)]
    exact runLoop_done hb2 n
  rw [wait_for_fixation_start_pygaze, h1]
  simpa [get_time, envFixHold, tickClk, Ctr.bumpC] using h2

/-- C1: the claim is false for the heuristic mode: with a 10 ms
timeout, a clock that advances 1 ms per read and a gaze that never
leaves the fixation anchor, `wait_for_fixation_end` keeps polling
forever — after any number of loop iterations it has neither returned
a value nor a timeout sentinel, even though the clock passed the
timeout long ago.  The heuristic branch never reads its `timeout`
argument. -/
theorem C1_counterexample : fixEndStuckOnTimeout := by
  intro fuel
  match fuel with
  | 0 => rfl
  | 1 =>
    norm_num [wait_for_fixation_end, wait_for_fixation_end_pygaze,
      wait_for_fixation_start_pygaze, pollValid, runLoop, pollValidBody,
      fixStartBody, distSq, sample, envFixHold, rawOf, resolveGaze,
      is_valid_sample, get_time, tickClk, cParams, recState, ctr0,
      RunRes.map, Ctr.bumpS, Ctr.bumpC]
  | n + 2 =>
    have hs := fixStartHold_ok n
    have hout := fixEndHold_out (n + 2) ⟨true, some 1, (100, 100), -1⟩
      ⟨3, 3, 0, 0, 0⟩ rfl rfl
    simp only [wait_for_fixation_end, wait_for_fixation_end_pygaze, hs,
      hout, RunRes.map]

theorem nativeTimeout_returns (env : Env) (event : ℤ) (T : ℚ) (t0 : ℚ)
    (σ : TState) : ∀ (k : ℕ) (ctr : Ctr) (fuel : ℕ),
    (∀ n, env.nextData n ≠ event) → env.clk (ctr.c + k) - t0 > T →
    k < fuel →
    ∃ ctr1, runLoop (nativeEventBody env event (some T) t0) fuel () σ ctr
      = .ok none σ ctr1 := by
  intro k
  induction k with
  | zero =>
    intro ctr fuel hne hk hf
    obtain ⟨m, rfl⟩ : ∃ m, fuel = m + 1 := ⟨fuel - 1, by omega⟩
    refine ⟨ctr.bumpD.bumpC, ?_⟩
    have hb : nativeEventBody env event (some T) t0 () σ ctr
        = .done none σ ctr.bumpD.bumpC := by
      simp only [Nat.add_zero] at hk
      simp [nativeEventBody, nativeTimeoutStep, getNextData, get_time,
        hne ctr.d, Ctr.bumpD, hk]
    exact runLoop_done hb m
  | succ j ih =>
    intro ctr fuel hne hk hf
    obtain ⟨m, rfl⟩ : ∃ m, fuel = m + 1 := ⟨fuel - 1, by omega⟩
    by_cases hnow : env.clk ctr.c - t0 > T
    · refine ⟨ctr.bumpD.bumpC, ?_⟩
      have hb : nativeEventBody env event (some T) t0 () σ ctr
          = .done none σ ctr.bumpD.bumpC := by
        simp [nativeEventBody, nativeTimeoutStep, getNextData, get_time,
          hne ctr.d, Ctr.bumpD, hnow]
      exact runLoop_done hb m
    · have hb : nativeEventBody env event (some T) t0 () σ ctr
          = .cont () σ ctr.bumpD.bumpC := by
        simp [nativeEventBody, nativeTimeoutStep, getNextData, get_time,
          hne ctr.d, Ctr.bumpD, hnow]
      rw [runLoop_cont hb m]
      refine ih ctr.bumpD.bumpC m hne ?_ (by omega)
      have : ctr.bumpD.bumpC.c + j = ctr.c + (j + 1) := by
        simp [Ctr.bumpD, Ctr.bumpC]
        omega
      rw [this]
      exact hk

/-- C1 (amended): the timeout bounds the wait only in native mode:
there, if `getNextData()` never reports the requested event and some
clock read after entry exceeds `t0 + timeout`, the call returns the
`(None, None)` sentinel, with the object state untouched.  In
heuristic mode the `timeout` argument is ignored entirely: the run is
the same function of the environment for any two timeout values, and
(per the counterexample) the call can poll forever past the timeout. -/
theorem C1_timeout_amended (env : Env) (p : Params) (T : ℚ) (σ : TState)
    (ctr : Ctr) (fuel k : ℕ) (hrec : σ.recording = true)
    (hne : ∀ n, env.nextData n ≠ ENDFIX)
    (hk : env.clk (ctr.c + 1 + k) - env.clk ctr.c > T) (hf : k < fuel) :
    (∃ ctr1, wait_for_fixation_end env p .native fuel (some T) σ ctr
      = .ok (.timeData none)
        { σ with eyeUsed := some (σ.eyeUsed.getD env.availEye) } ctr1) ∧
    (∀ to1 to2 fl σ2 c2,
      wait_for_fixation_end env p .pygaze fl to1 σ2 c2
        = wait_for_fixation_end env p .pygaze fl to2 σ2 c2) := by
  constructor
  · have hkk : env.clk (ctr.bumpC.c + k) - env.clk ctr.c > T := by
      have : ctr.bumpC.c + k = ctr.c + 1 + k := by simp [Ctr.bumpC]
      rw [this]
      exact hk
    obtain ⟨ctr1, hrun⟩ := nativeTimeout_returns env ENDFIX T
      (env.clk ctr.c) { σ with eyeUsed := some (σ.eyeUsed.getD env.availEye) }
      k ctr.bumpC fuel hne hkk hf
    refine ⟨ctr1, ?_⟩
    have hwe : wait_for_event_native env fuel ENDFIX (some T) σ ctr
        = runLoop (nativeEventBody env ENDFIX (some T) (env.clk ctr.c))
          fuel () { σ with eyeUsed := some (σ.eyeUsed.getD env.availEye) }
          ctr.bumpC := by
      rw [wait_for_event_native]
      simp [hrec, get_time]
    simp only [wait_for_fixation_end, hwe, hrun, RunRes.map]
  · intro to1 to2 fl σ2 c2
    rfl

theorem C1_timeout_amended_witness :
    (∃ ctr1, wait_for_fixation_end (envNat 0) cParams .native 20 (some 10)
      recState ctr0 = .ok (.timeData none) recState ctr1) ∧
    (∀ to1 to2 fl σ2 c2,
      wait_for_fixation_end (envNat 0) cParams .pygaze fl to1 σ2 c2
        = wait_for_fixation_end (envNat 0) cParams .pygaze fl to2 σ2 c2) := by
  have hc := C1_timeout_amended (envNat 0) cParams 10 recState ctr0 20 11
    rfl (by intro n; norm_num [envNat, ENDFIX])
    (by norm_num [envNat, tickClk, ctr0]) (by norm_num)
  constructor
  · obtain ⟨c1, hcc⟩ := hc.1
    refine ⟨c1, ?_⟩
    simpa [recState] using hcc
  · exact hc.2

theorem sample_stream {env : Env} {g : ℕ → Gaze}
    (henv : ∀ i, env.feed i = some (rawOf (g i))) {σ : TState}
    (hrec : σ.recording = true) (heye : σ.eyeUsed = some 1) (ctr : Ctr) :
    sample env σ ctr = .ok (g ctr.s,
      { σ with eyeUsed := some 1, prevsample := g ctr.s }, ctr.bumpS) := by
  simp [sample, hrec, heye, henv ctr.s, rawOf, resolveGaze]

theorem valid_of_ne {gz : Gaze} (h : gz ≠ (-1, -1)) :
    is_valid_sample gz = true := by
  simp [is_valid_sample, h]

theorem saccStartBody_skip {env : Env} {g : ℕ → Gaze}
    (henv : ∀ i, env.feed i = some (rawOf (g i))) (p : Params)
    {σ : TState} (hrec : σ.recording = true) (heye : σ.eyeUsed = some 1)
    (ctr : Ctr) (t0 v0 : ℚ) (prevpos : Gaze)
    (h : ¬(is_valid_sample (g ctr.s) ∧ g ctr.s ≠ prevpos)) :
    saccStartBody env p (t0, v0, prevpos) σ ctr
      = .cont (t0, v0, prevpos)
        { σ with eyeUsed := some 1, prevsample := g ctr.s }
        ctr.bumpS.bumpC := by
  simp [saccStartBody, sample_stream henv hrec heye, get_time, h,
    Ctr.bumpS]

theorem saccStartBody_below_noise {env : Env} {g : ℕ → Gaze}
    (henv : ∀ i, env.feed i = some (rawOf (g i))) (p : Params)
    {σ : TState} (hrec : σ.recording = true) (heye : σ.eyeUsed = some 1)
    (ctr : Ctr) (t0 v0 : ℚ) (prevpos : Gaze)
    (hv : is_valid_sample (g ctr.s) = true) (hch : g ctr.s ≠ prevpos)
    (hn : wdistOf p prevpos (g ctr.s) ≤ p.weightdist) :
    saccStartBody env p (t0, v0, prevpos) σ ctr
      = .cont (t0, v0, g ctr.s)
        { σ with eyeUsed := some 1, prevsample := g ctr.s }
        ctr.bumpS.bumpC := by
  simp [saccStartBody, sample_stream henv hrec heye, get_time, hv, hch,
    not_lt.2 hn, Ctr.bumpS]

theorem saccStart_below_noise_out {env : Env} {p : Params} {g : ℕ → Gaze}
    (henv : ∀ i, env.feed i = some (rawOf (g i)))
    (hval : ∀ i, g i ≠ (-1, -1))
    (hnoise : ∀ i, wdistOf p (g i) (g (i + 1)) ≤ p.weightdist) :
    ∀ (fuel i : ℕ) (t0 v0 : ℚ) (σ2 : TState) (ctr2 : Ctr),
    σ2.recording = true → σ2.eyeUsed = some 1 → ctr2.s = i + 1 →
    runLoop (saccStartBody env p) fuel (t0, v0, g i) σ2 ctr2 = .out := by
  intro fuel
  induction fuel with
  | zero => intros; rfl
  | succ n ih =>
    intro i t0 v0 σ2 ctr2 hrec heye hs
    by_cases hch : g ctr2.s = g i
    · have hb := saccStartBody_skip henv p hrec heye ctr2 t0 v0
        (g i) (by simp [hch])
      rw [runLoop_cont hb n]
      have hgi : g i = g (i + 1) := by rw [← hs, hch]
      rw [hgi]
      exact ih (i + 1) t0 v0 _ _ (by simp [hrec]) (by simp)
        (by simp [Ctr.bumpS, Ctr.bumpC, hs])
    · have hb := saccStartBody_below_noise henv p hrec heye ctr2 t0 v0
        (g i) (valid_of_ne (hval ctr2.s)) hch
        (by rw [hs]; exact hnoise i)
      rw [runLoop_cont hb n]
      rw [hs]
      exact ih (i + 1) t0 v0 _ _ (by simp [hrec]) (by simp)
        (by simp [Ctr.bumpS, Ctr.bumpC, hs])

/-- C4: with every sample valid and every per-step weighted squared
displacement at most `weightdist`, the heuristic
`wait_for_saccade_start` never declares a saccade, no matter how much
fuel the polling loop is given; moreover a single below-noise valid,
changed step leaves the rolling baseline `(t0, v0)` untouched — the
loop continues with the same `t0` and `v0` and only the previous
position and the per-poll sample bookkeeping advance. -/
theorem C4_below_noise (env : Env) (p : Params) (g : ℕ → Gaze)
    (σ : TState) (ctr : Ctr)
    (henv : ∀ i, env.feed i = some (rawOf (g i)))
    (hrec : σ.recording = true) (heye : σ.eyeUsed = some 1)
    (hval : ∀ i, g i ≠ (-1, -1))
    (hnoise : ∀ i, wdistOf p (g i) (g (i + 1)) ≤ p.weightdist) :
    (∀ fuel, wait_for_saccade_start env p .pygaze fuel σ ctr = .out) ∧
    (∀ (fuel : ℕ) (t0 v0 : ℚ) (prevpos : Gaze) (σ2 : TState) (ctr2 : Ctr),
      σ2.recording = true → σ2.eyeUsed = some 1 → g ctr2.s ≠ prevpos →
      wdistOf p prevpos (g ctr2.s) ≤ p.weightdist →
      runLoop (saccStartBody env p) (fuel + 1) (t0, v0, prevpos) σ2 ctr2
        = runLoop (saccStartBody env p) fuel (t0, v0, g ctr2.s)
          { σ2 with eyeUsed := some 1, prevsample := g ctr2.s }
          ctr2.bumpS.bumpC) := by
  constructor
  · intro fuel
    match fuel with
    | 0 => rfl
    | n + 1 =>
      have hb0 : pollValidBody env () σ ctr
          = .done (g ctr.s)
            { σ with eyeUsed := some 1, prevsample := g ctr.s }
            ctr.bumpS := by
        simp [pollValidBody, sample_stream henv hrec heye,
          valid_of_ne (hval ctr.s)]
      have h1 : pollValid env (n + 1) σ ctr
          = .ok (g ctr.s)
            { σ with eyeUsed := some 1, prevsample := g ctr.s }
            ctr.bumpS :=
        runLoop_done hb0 n
      rw [wait_for_saccade_start]
      rw [wait_for_saccade_start_pygaze, h1]
      have hloop := saccStart_below_noise_out henv hval hnoise (n + 1)
        ctr.s (env.clk ctr.bumpS.c) 0
        { σ with eyeUsed := some 1, prevsample := g ctr.s }
        ctr.bumpS.bumpC hrec rfl (by simp [Ctr.bumpS, Ctr.bumpC])
      simp only [get_time, RunRes.map, hloop]
  · intro fuel t0 v0 prevpos σ2 ctr2 hr2 he2 hch hn
    exact runLoop_cont (saccStartBody_below_noise henv p hr2 he2 ctr2
      t0 v0 prevpos (valid_of_ne (hval ctr2.s)) hch hn) fuel

theorem C4_below_noise_witness :
    (∀ fuel, wait_for_saccade_start envNoise cParams .pygaze fuel recState
      ctr0 = .out) ∧
    (∀ (fuel : ℕ) (t0 v0 : ℚ) (prevpos : Gaze) (σ2 : TState) (ctr2 : Ctr),
      σ2.recording = true → σ2.eyeUsed = some 1 → gW ctr2.s ≠ prevpos →
      wdistOf cParams prevpos (gW ctr2.s) ≤ cParams.weightdist →
      runLoop (saccStartBody envNoise cParams) (fuel + 1)
          (t0, v0, prevpos) σ2 ctr2
        = runLoop (saccStartBody envNoise cParams) fuel
          (t0, v0, gW ctr2.s)
          { σ2 with eyeUsed := some 1, prevsample := gW ctr2.s }
          ctr2.bumpS.bumpC) := by
  refine C4_below_noise envNoise cParams gW recState ctr0
    (fun i => rfl) rfl rfl (fun i => ?_) (fun i => ?_)
  · simp only [gW, Prod.mk.injEq, ne_eq, not_and]
    intro _
    norm_num
  · simp only [gW, wdistOf, cParams]
    push_cast
    ring_nf
    norm_num

theorem pollValid_stream {env : Env} {g : ℕ → Gaze}
    (henv : ∀ i, env.feed i = some (rawOf (g i))) {σ : TState}
    (hrec : σ.recording = true) (heye : σ.eyeUsed = some 1) (ctr : Ctr)
    (hv : g ctr.s ≠ (-1, -1)) (n : ℕ) :
    pollValid env (n + 1) σ ctr = .ok (g ctr.s)
      { σ with eyeUsed := some 1, prevsample := g ctr.s } ctr.bumpS := by
  refine runLoop_done ?_ n
  simp [pollValidBody, sample_stream henv hrec heye, valid_of_ne hv]

theorem runLoop_ok_mono {α β : Type} {body : α → TState → Ctr → BodyRes α β} :
    ∀ (fuel : ℕ) (a : α) (σ : TState) (ctr : Ctr) (b : β) (σ1 : TState)
    (c1 : Ctr), runLoop body fuel a σ ctr = .ok b σ1 c1 →
    runLoop body (fuel + 1) a σ ctr = .ok b σ1 c1 := by
  intro fuel
  induction fuel with
  | zero => intro a σ ctr b σ1 c1 h; simp [runLoop] at h
  | succ n ih =>
    intro a σ ctr b σ1 c1 h
    rw [runLoop] at h
    rw [runLoop]
    cases hb : body a σ ctr with
    | cont a2 σ2 c2 => rw [hb] at h; exact ih _ _ _ _ _ _ h
    | done b2 σ2 c2 => rw [hb] at h; exact h
    | fail e => rw [hb] at h; exact absurd h (by simp)
    | spin => rw [hb] at h; exact absurd h (by simp)

theorem fixStartBody_invalid {env : Env} {g : ℕ → Gaze}
    (henv : ∀ i, env.feed i = some (rawOf (g i))) (p : Params)
    {σ : TState} (hrec : σ.recording = true) (heye : σ.eyeUsed = some 1)
    (ctr : Ctr) (spos : Gaze) (t0 : ℚ) (hv : g ctr.s = (-1, -1)) :
    fixStartBody env p (spos, t0) σ ctr = .cont (spos, t0)
      { σ with eyeUsed := some 1, prevsample := g ctr.s } ctr.bumpS := by
  simp [fixStartBody, sample_stream henv hrec heye, hv, is_valid_sample]

theorem fixStartBody_dwell {env : Env} {g : ℕ → Gaze}
    (henv : ∀ i, env.feed i = some (rawOf (g i))) (p : Params)
    {σ : TState} (hrec : σ.recording = true) (heye : σ.eyeUsed = some 1)
    (ctr : Ctr) (spos : Gaze) (t0 : ℚ)
    (hv : is_valid_sample (g ctr.s) = true)
    (hin : distSq spos (g ctr.s) ≤ p.pxfixtresh ^ 2)
    (hd : env.clk ctr.c - t0 ≥ p.fixtimetresh) :
    fixStartBody env p (spos, t0) σ ctr = .done (env.clk ctr.c, spos)
      { σ with eyeUsed := some 1, prevsample := g ctr.s }
      ctr.bumpS.bumpC := by
  simp [fixStartBody, sample_stream henv hrec heye, hv, not_lt.2 hin,
    get_time, Ctr.bumpS, hd]

theorem fixStartBody_wait {env : Env} {g : ℕ → Gaze}
    (henv : ∀ i, env.feed i = some (rawOf (g i))) (p : Params)
    {σ : TState} (hrec : σ.recording = true) (heye : σ.eyeUsed = some 1)
    (ctr : Ctr) (spos : Gaze) (t0 : ℚ)
    (hv : is_valid_sample (g ctr.s) = true)
    (hin : distSq spos (g ctr.s) ≤ p.pxfixtresh ^ 2)
    (hd : ¬(env.clk ctr.c - t0 ≥ p.fixtimetresh)) :
    fixStartBody env p (spos, t0) σ ctr = .cont (spos, t0)
      { σ with eyeUsed := some 1, prevsample := g ctr.s }
      ctr.bumpS.bumpC := by
  simp [fixStartBody, sample_stream henv hrec heye, hv, not_lt.2 hin,
    get_time, Ctr.bumpS, hd]

theorem fixStart_loop_safety {env : Env} {p : Params} {g : ℕ → Gaze}
    (henv : ∀ i, env.feed i = some (rawOf (g i))) (anchor : Gaze)
    (hrad : ∀ i, g i ≠ (-1, -1) →
      distSq anchor (g i) ≤ p.pxfixtresh ^ 2) :
    ∀ (fuel : ℕ) (T0 : ℚ) (σ2 : TState) (ctr2 : Ctr) (r : ℚ × Gaze)
    (σ1 : TState) (c1 : Ctr), σ2.recording = true → σ2.eyeUsed = some 1 →
    runLoop (fixStartBody env p) fuel (anchor, T0) σ2 ctr2 = .ok r σ1 c1 →
    ∃ t, r = (t, anchor) ∧ t - T0 ≥ p.fixtimetresh := by
  intro fuel
  induction fuel with
  | zero => intro T0 σ2 ctr2 r σ1 c1 _ _ h; simp [runLoop] at h
  | succ n ih =>
    intro T0 σ2 ctr2 r σ1 c1 hr he h
    by_cases hv : g ctr2.s = (-1, -1)
    · rw [runLoop_cont (fixStartBody_invalid henv p hr he ctr2 anchor T0
        hv) n] at h
      exact ih T0 { σ2 with eyeUsed := some 1, prevsample := g ctr2.s }
        ctr2.bumpS r σ1 c1 hr rfl h
    · by_cases hd : env.clk ctr2.c - T0 ≥ p.fixtimetresh
      · rw [runLoop_done (fixStartBody_dwell henv p hr he ctr2 anchor T0
          (valid_of_ne hv) (hrad _ hv) hd) n] at h
        simp only [RunRes.ok.injEq] at h
        exact ⟨env.clk ctr2.c, h.1.symm, hd⟩
      · rw [runLoop_cont (fixStartBody_wait henv p hr he ctr2 anchor T0
          (valid_of_ne hv) (hrad _ hv) hd) n] at h
        exact ih T0 { σ2 with eyeUsed := some 1, prevsample := g ctr2.s }
          ctr2.bumpS.bumpC r σ1 c1 hr rfl h

theorem fixStart_loop_live {env : Env} {p : Params} {g : ℕ → Gaze}
    (henv : ∀ i, env.feed i = some (rawOf (g i))) (anchor : Gaze)
    (hval : ∀ i, g i ≠ (-1, -1))
    (hrad : ∀ i, distSq anchor (g i) ≤ p.pxfixtresh ^ 2) :
    ∀ (k : ℕ) (T0 : ℚ) (σ2 : TState) (ctr2 : Ctr),
    σ2.recording = true → σ2.eyeUsed = some 1 →
    env.clk (ctr2.c + k) - T0 ≥ p.fixtimetresh →
    ∃ fuel t σ1 c1,
      runLoop (fixStartBody env p) fuel (anchor, T0) σ2 ctr2
        = .ok (t, anchor) σ1 c1 ∧ t - T0 ≥ p.fixtimetresh := by
  intro k
  induction k with
  | zero =>
    intro T0 σ2 ctr2 hr he hk
    simp only [Nat.add_zero] at hk
    exact ⟨1, env.clk ctr2.c, _, _,
      runLoop_done (fixStartBody_dwell henv p hr he ctr2 anchor T0
        (valid_of_ne (hval _)) (hrad _) hk) 0, hk⟩
  | succ j ih =>
    intro T0 σ2 ctr2 hr he hk
    by_cases hd : env.clk ctr2.c - T0 ≥ p.fixtimetresh
    · exact ⟨1, env.clk ctr2.c, _, _,
        runLoop_done (fixStartBody_dwell henv p hr he ctr2 anchor T0
          (valid_of_ne (hval _)) (hrad _) hd) 0, hd⟩
    · have hkk : env.clk (ctr2.bumpS.bumpC.c + j) - T0 ≥ p.fixtimetresh := by
        have : ctr2.bumpS.bumpC.c + j = ctr2.c + (j + 1) := by
          simp [Ctr.bumpS, Ctr.bumpC]
          omega
        rw [this]
        exact hk
      obtain ⟨fl, t, σ1, c1, hrun, ht⟩ := ih T0
        { σ2 with eyeUsed := some 1, prevsample := g ctr2.s }
        ctr2.bumpS.bumpC hr rfl hkk
      refine ⟨fl + 1, t, σ1, c1, ?_, ht⟩
      rw [runLoop_cont (fixStartBody_wait henv p hr he ctr2 anchor T0
        (valid_of_ne (hval _)) (hrad _) hd) fl]
      exact hrun

/-- C5: in heuristic mode, when every valid sample stays within
`pxfixtresh` of the anchor (the first polled sample, itself valid),
any value `wait_for_fixation_start` returns is the pair of a timestamp
`t` with `t - t0 ≥ fixtimetresh` (where `t0` is the clock read taken
when the anchor was set — it never fires early) together with the
anchor position; and when moreover every sample is valid and some
later clock read is at least `t0 + fixtimetresh`, the call does return
such a pair. -/
theorem C5_fixation_start (env : Env) (p : Params) (g : ℕ → Gaze)
    (σ : TState) (ctr : Ctr)
    (henv : ∀ i, env.feed i = some (rawOf (g i)))
    (hrec : σ.recording = true) (heye : σ.eyeUsed = some 1)
    (hval0 : g ctr.s ≠ (-1, -1))
    (hrad : ∀ i, g i ≠ (-1, -1) →
      distSq (g ctr.s) (g i) ≤ p.pxfixtresh ^ 2) :
    (∀ fuel r σ1 c1,
      wait_for_fixation_start env p .pygaze fuel σ ctr = .ok r σ1 c1 →
      ∃ t, r = .pair t (g ctr.s) ∧ t - env.clk ctr.c ≥ p.fixtimetresh) ∧
    ((∀ i, g i ≠ (-1, -1)) →
      ∀ k, env.clk (ctr.c + 1 + k) - env.clk ctr.c ≥ p.fixtimetresh →
      ∃ fuel t σ1 c1,
        wait_for_fixation_start env p .pygaze fuel σ ctr
          = .ok (.pair t (g ctr.s)) σ1 c1 ∧
        t - env.clk ctr.c ≥ p.fixtimetresh) := by
  constructor
  · intro fuel r σ1 c1 h
    match fuel with
    | 0 => exact absurd h (by simp [wait_for_fixation_start,
        wait_for_fixation_start_pygaze, pollValid, runLoop, RunRes.map])
    | n + 1 =>
      rw [wait_for_fixation_start] at h
      rw [wait_for_fixation_start_pygaze,
        pollValid_stream henv hrec heye ctr hval0 n] at h
      simp only [get_time] at h
      obtain ⟨a, ha, hx⟩ := map_ok h
      obtain ⟨t, hta, htd⟩ := fixStart_loop_safety henv (g ctr.s) hrad
        (n + 1) (env.clk ctr.bumpS.c)
        { σ with eyeUsed := some 1, prevsample := g ctr.s }
        ctr.bumpS.bumpC a _ _ hrec rfl hx
      exact ⟨t, by rw [ha, hta], htd⟩
  · intro hval k hk
    have hkk : env.clk (ctr.bumpS.bumpC.c + k) - env.clk ctr.bumpS.c
        ≥ p.fixtimetresh := by
      have h1 : ctr.bumpS.bumpC.c + k = ctr.c + 1 + k := by
        simp [Ctr.bumpS, Ctr.bumpC]
      have h2 : ctr.bumpS.c = ctr.c := by simp [Ctr.bumpS]
      rw [h1, h2]
      exact hk
    obtain ⟨fl, t, σ1, c1, hrun, ht⟩ := fixStart_loop_live henv (g ctr.s)
      hval (fun i => hrad i (hval i)) k (env.clk ctr.bumpS.c)
      { σ with eyeUsed := some 1, prevsample := g ctr.s }
      ctr.bumpS.bumpC hrec rfl hkk
    refine ⟨fl + 1, t, σ1, c1, ?_, by simpa [Ctr.bumpS] using ht⟩
    rw [wait_for_fixation_start]
    rw [wait_for_fixation_start_pygaze,
      pollValid_stream henv hrec heye ctr hval0 fl]
    simp only [get_time]
    rw [runLoop_ok_mono fl _ _ _ _ _ _ hrun]
    rfl

theorem C5_fixation_start_witness :
    (∀ fuel r σ1 c1,
      wait_for_fixation_start envFixHold cParams .pygaze fuel recState ctr0
        = .ok r σ1 c1 →
      ∃ t, r = .pair t ((100, 100) : Gaze) ∧
        t - envFixHold.clk ctr0.c ≥ cParams.fixtimetresh) ∧
    ((∀ i : ℕ, ((100, 100) : Gaze) ≠ (-1, -1)) →
      ∀ k, envFixHold.clk (ctr0.c + 1 + k) - envFixHold.clk ctr0.c
          ≥ cParams.fixtimetresh →
      ∃ fuel t σ1 c1,
        wait_for_fixation_start envFixHold cParams .pygaze fuel recState
          ctr0 = .ok (.pair t ((100, 100) : Gaze)) σ1 c1 ∧
        t - envFixHold.clk ctr0.c ≥ cParams.fixtimetresh) := by
  exact C5_fixation_start envFixHold cParams (fun _ => (100, 100))
    recState ctr0 (fun i => rfl) rfl rfl (by norm_num)
    (fun i _ => by norm_num [distSq, cParams])

theorem saccEndBody_fire {env : Env} {g : ℕ → Gaze}
    (henv : ∀ i, env.feed i = some (rawOf (g i))) (p : Params)
    {σ : TState} (hrec : σ.recording = true) (heye : σ.eyeUsed = some 1)
    (ctr : Ctr) (t0 v0 : ℚ) (prevpos : Gaze)
    (hv : g ctr.s ≠ (-1, -1)) (hch : g ctr.s ≠ prevpos)
    (h1 : (stepVelAcc prevpos (g ctr.s) t0 (env.clk ctr.c) v0).1
      < p.pxspdtresh)
    (h2 : -p.pxacctresh
      < (stepVelAcc prevpos (g ctr.s) t0 (env.clk ctr.c) v0).2)
    (h3 : (stepVelAcc prevpos (g ctr.s) t0 (env.clk ctr.c) v0).2 < 0) :
    saccEndBody env p (t0, v0, prevpos) σ ctr
      = .done (env.clk (ctr.c + 1), g ctr.s)
        { σ with eyeUsed := some 1, prevsample := g ctr.s }
        ctr.bumpS.bumpC.bumpC := by
  simp [saccEndBody, sample_stream henv hrec heye, get_time,
    valid_of_ne hv, hch, Ctr.bumpS, Ctr.bumpC, h1, h2, h3]

theorem saccEndBody_roll {env : Env} {g : ℕ → Gaze}
    (henv : ∀ i, env.feed i = some (rawOf (g i))) (p : Params)
    {σ : TState} (hrec : σ.recording = true) (heye : σ.eyeUsed = some 1)
    (ctr : Ctr) (t0 v0 : ℚ) (prevpos : Gaze)
    (hv : g ctr.s ≠ (-1, -1)) (hch : g ctr.s ≠ prevpos)
    (hnc : ¬((stepVelAcc prevpos (g ctr.s) t0 (env.clk ctr.c) v0).1
        < p.pxspdtresh ∧
      (-p.pxacctresh
        < (stepVelAcc prevpos (g ctr.s) t0 (env.clk ctr.c) v0).2 ∧
       (stepVelAcc prevpos (g ctr.s) t0 (env.clk ctr.c) v0).2 < 0))) :
    saccEndBody env p (t0, v0, prevpos) σ ctr
      = .cont (env.clk ctr.c,
          (stepVelAcc prevpos (g ctr.s) t0 (env.clk ctr.c) v0).1, g ctr.s)
        { σ with eyeUsed := some 1, prevsample := g ctr.s }
        ctr.bumpS.bumpC := by
  simp only [saccEndBody, sample_stream henv hrec heye, get_time,
    Ctr.bumpS, Ctr.bumpC]
  simp [valid_of_ne hv, hch, hnc, Ctr.bumpS, Ctr.bumpC]

/-- C6: the heuristic `wait_for_saccade_end` detection loop declares
the saccade over exactly at a valid, changed sample whose computed
velocity is below `pxspdtresh` and whose computed acceleration lies
strictly inside `(-pxacctresh, 0)`: at such a sample it returns at
once, with the end position equal to that sample and the end timestamp
the next clock read; at a valid, changed sample failing that test it
keeps looping, only rolling `(t0, v0, prevpos)` forward; and the value
the public operation returns carries the end timestamp, the original
saccade start position, and the detected end position. -/
theorem C6_saccade_end (env : Env) (p : Params) (g : ℕ → Gaze)
    (σ2 : TState) (ctr2 : Ctr) (t0 v0 : ℚ) (prevpos : Gaze) (fuel : ℕ)
    (henv : ∀ i, env.feed i = some (rawOf (g i)))
    (hrec : σ2.recording = true) (heye : σ2.eyeUsed = some 1)
    (hv : g ctr2.s ≠ (-1, -1)) (hch : g ctr2.s ≠ prevpos) :
    (((stepVelAcc prevpos (g ctr2.s) t0 (env.clk ctr2.c) v0).1
        < p.pxspdtresh ∧
      (-p.pxacctresh
        < (stepVelAcc prevpos (g ctr2.s) t0 (env.clk ctr2.c) v0).2 ∧
       (stepVelAcc prevpos (g ctr2.s) t0 (env.clk ctr2.c) v0).2 < 0)) →
      runLoop (saccEndBody env p) (fuel + 1) (t0, v0, prevpos) σ2 ctr2
        = .ok (env.clk (ctr2.c + 1), g ctr2.s)
          { σ2 with eyeUsed := some 1, prevsample := g ctr2.s }
          ctr2.bumpS.bumpC.bumpC) ∧
    (¬((stepVelAcc prevpos (g ctr2.s) t0 (env.clk ctr2.c) v0).1
        < p.pxspdtresh ∧
      (-p.pxacctresh
        < (stepVelAcc prevpos (g ctr2.s) t0 (env.clk ctr2.c) v0).2 ∧
       (stepVelAcc prevpos (g ctr2.s) t0 (env.clk ctr2.c) v0).2 < 0)) →
      runLoop (saccEndBody env p) (fuel + 1) (t0, v0, prevpos) σ2 ctr2
        = runLoop (saccEndBody env p) fuel (env.clk ctr2.c,
            (stepVelAcc prevpos (g ctr2.s) t0 (env.clk ctr2.c) v0).1,
            g ctr2.s)
          { σ2 with eyeUsed := some 1, prevsample := g ctr2.s }
          ctr2.bumpS.bumpC) ∧
    (∀ (F : ℕ) (σ : TState) (ctr : Ctr) (ts : ℚ × Gaze) (σA : TState)
      (cA : Ctr) (pv : Gaze) (σB : TState) (cB : Ctr) (te : ℚ × Gaze)
      (σC : TState) (cC : Ctr),
      wait_for_saccade_start_pygaze env p F σ ctr = .ok ts σA cA →
      pollValid env F σA cA = .ok pv σB cB →
      runLoop (saccEndBody env p) F (ts.1,
          psqrt ((pv.1 - ts.2.1) ^ 2 + (pv.2 - ts.2.2) ^ 2)
            / (env.clk cB.c - ts.1), pv) σB cB.bumpC = .ok te σC cC →
      wait_for_saccade_end env p .pygaze F σ ctr
        = .ok (.pairPos2 te.1 ts.2 te.2) σC cC) := by
  refine ⟨fun hcond => ?_, fun hnc => ?_, ?_⟩
  · exact runLoop_done (saccEndBody_fire henv p hrec heye ctr2 t0 v0 prevpos
      hv hch hcond.1 hcond.2.1 hcond.2.2) fuel
  · exact runLoop_cont (saccEndBody_roll henv p hrec heye ctr2 t0 v0 prevpos
      hv hch hnc) fuel
  · intro F σ ctr ts σA cA pv σB cB te σC cC hstart hpoll hloop
    simp only [wait_for_saccade_end, wait_for_saccade_end_pygaze, hstart,
      hpoll, get_time, hloop, RunRes.map]

theorem C6_saccade_end_witness :
    ((stepVelAcc ((5, 6) : Gaze) (saccGaze 3) 2 (envSacc.clk 4) 5).1
        < sParams.pxspdtresh ∧
      (-sParams.pxacctresh
        < (stepVelAcc ((5, 6) : Gaze) (saccGaze 3) 2 (envSacc.clk 4) 5).2 ∧
       (stepVelAcc ((5, 6) : Gaze) (saccGaze 3) 2 (envSacc.clk 4) 5).2
        < 0)) ∧
    runLoop (saccEndBody envSacc sParams) 8 (2, 5, ((5, 6) : Gaze))
        ⟨true, some 1, (5, 6), -1⟩ ⟨3, 4, 0, 0, 0⟩
      = .ok (envSacc.clk 5, saccGaze 3)
        ⟨true, some 1, saccGaze 3, -1⟩ ⟨4, 6, 0, 0, 0⟩ := by
  have hcond : (stepVelAcc ((5, 6) : Gaze) (saccGaze 3) 2
      (envSacc.clk 4) 5).1 < sParams.pxspdtresh ∧
      (-sParams.pxacctresh
        < (stepVelAcc ((5, 6) : Gaze) (saccGaze 3) 2 (envSacc.clk 4) 5).2 ∧
       (stepVelAcc ((5, 6) : Gaze) (saccGaze 3) 2 (envSacc.clk 4) 5).2
        < 0) := by
    norm_num [stepVelAcc, psqrt, natSqrt, natSqrtAux, saccGaze, envSacc,
      tickClk, sParams]
  refine ⟨hcond, ?_⟩
  have hc := (C6_saccade_end envSacc sParams saccGaze
    ⟨true, some 1, (5, 6), -1⟩ ⟨3, 4, 0, 0, 0⟩ 2 5 (5, 6) 7
    (fun i => rfl) rfl rfl (by norm_num [saccGaze])
    (by norm_num [saccGaze])).1 hcond
  convert hc using 2 <;> norm_num [saccGaze, Ctr.bumpS, Ctr.bumpC]

theorem saccEndBody_keep {env : Env} {g : ℕ → Gaze}
    (henv : ∀ i, env.feed i = some (rawOf (g i))) (p : Params)
    {σ : TState} (hrec : σ.recording = true) (heye : σ.eyeUsed = some 1)
    (ctr : Ctr) (t0 v0 : ℚ) (prevpos : Gaze)
    (h : ¬(is_valid_sample (g ctr.s) ∧ g ctr.s ≠ prevpos)) :
    saccEndBody env p (t0, v0, prevpos) σ ctr
      = .cont (t0, v0, g ctr.s)
        { σ with eyeUsed := some 1, prevsample := g ctr.s }
        ctr.bumpS.bumpC := by
  simp [saccEndBody, sample_stream henv hrec heye, get_time, h, Ctr.bumpS]

/-- C10: in the heuristic `wait_for_saccade_end` loop, an iteration
that polls the invalid sentinel still overwrites the previous-position
variable with it (while leaving `t0` and `v0` alone), whereas the
`wait_for_saccade_start` loop keeps its previous position on such an
iteration; consequently, once the previous position is `(-1, -1)`, the
next valid sample `n` has its displacement, velocity and acceleration
computed by `stepVelAcc (-1, -1) n …`, that is, relative to the
sentinel — whether that step then ends the saccade or merely rolls the
state forward. -/
theorem C10_prevpos_overwrite (env : Env) (p : Params) (g : ℕ → Gaze)
    (σ2 : TState) (ctr2 : Ctr) (t0 v0 : ℚ) (prevpos : Gaze) (fuel : ℕ)
    (henv : ∀ i, env.feed i = some (rawOf (g i)))
    (hrec : σ2.recording = true) (heye : σ2.eyeUsed = some 1) :
    (g ctr2.s = (-1, -1) →
      runLoop (saccEndBody env p) (fuel + 1) (t0, v0, prevpos) σ2 ctr2
        = runLoop (saccEndBody env p) fuel (t0, v0, (-1, -1))
          { σ2 with eyeUsed := some 1, prevsample := (-1, -1) }
          ctr2.bumpS.bumpC) ∧
    (g ctr2.s = (-1, -1) →
      runLoop (saccStartBody env p) (fuel + 1) (t0, v0, prevpos) σ2 ctr2
        = runLoop (saccStartBody env p) fuel (t0, v0, prevpos)
          { σ2 with eyeUsed := some 1, prevsample := (-1, -1) }
          ctr2.bumpS.bumpC) ∧
    (g ctr2.s ≠ (-1, -1) →
      ¬((stepVelAcc (-1, -1) (g ctr2.s) t0 (env.clk ctr2.c) v0).1
          < p.pxspdtresh ∧
        (-p.pxacctresh
          < (stepVelAcc (-1, -1) (g ctr2.s) t0 (env.clk ctr2.c) v0).2 ∧
         (stepVelAcc (-1, -1) (g ctr2.s) t0 (env.clk ctr2.c) v0).2
          < 0)) →
      runLoop (saccEndBody env p) (fuel + 1) (t0, v0, (-1, -1)) σ2 ctr2
        = runLoop (saccEndBody env p) fuel (env.clk ctr2.c,
            (stepVelAcc (-1, -1) (g ctr2.s) t0 (env.clk ctr2.c) v0).1,
            g ctr2.s)
          { σ2 with eyeUsed := some 1, prevsample := g ctr2.s }
          ctr2.bumpS.bumpC) ∧
    (g ctr2.s ≠ (-1, -1) →
      ((stepVelAcc (-1, -1) (g ctr2.s) t0 (env.clk ctr2.c) v0).1
          < p.pxspdtresh ∧
        (-p.pxacctresh
          < (stepVelAcc (-1, -1) (g ctr2.s) t0 (env.clk ctr2.c) v0).2 ∧
         (stepVelAcc (-1, -1) (g ctr2.s) t0 (env.clk ctr2.c) v0).2
          < 0)) →
      runLoop (saccEndBody env p) (fuel + 1) (t0, v0, (-1, -1)) σ2 ctr2
        = .ok (env.clk (ctr2.c + 1), g ctr2.s)
          { σ2 with eyeUsed := some 1, prevsample := g ctr2.s }
          ctr2.bumpS.bumpC.bumpC) := by
  refine ⟨fun hs => ?_, fun hs => ?_, fun hv hnc => ?_, fun hv hc => ?_⟩
  · have hb := saccEndBody_keep henv p hrec heye ctr2 t0 v0
      prevpos (by simp [hs, is_valid_sample])
    rw [hs] at hb
    exact runLoop_cont hb fuel
  · have hb := saccStartBody_skip henv p hrec heye ctr2 t0 v0
      prevpos (by simp [hs, is_valid_sample])
    rw [hs] at hb
    exact runLoop_cont hb fuel
  · exact runLoop_cont (saccEndBody_roll henv p hrec heye ctr2 t0 v0
      (-1, -1) hv hv hnc) fuel
  · exact runLoop_done (saccEndBody_fire henv p hrec heye ctr2 t0 v0
      (-1, -1) hv hv hc.1 hc.2.1 hc.2.2) fuel

theorem C10_prevpos_overwrite_witness :
    runLoop (saccEndBody envMix sParams) 6 (4, 7, ((9, 12) : Gaze))
        recState ctr0
      = runLoop (saccEndBody envMix sParams) 5 (4, 7, (-1, -1))
        { recState with eyeUsed := some 1, prevsample := (-1, -1) }
        ctr0.bumpS.bumpC := by
  exact (C10_prevpos_overwrite envMix sParams gMix recState ctr0 4 7
    (9, 12) 5 (fun i => rfl) rfl rfl).1 (by norm_num [gMix, ctr0])


theorem blinkInnerBody_confirm {env : Env} {g : ℕ → Gaze}
    (henv : ∀ i, env.feed i = some (rawOf (g i))) (p : Params) (t0 : ℚ)
    {σ : TState} (hrec : σ.recording = true) (heye : σ.eyeUsed = some 1)
    (ctr : Ctr) (hs : g ctr.s = (-1, -1))
    (hd : env.clk ctr.c - t0 ≥ p.blink_threshold) :
    blinkInnerBody env p t0 () σ ctr = .done (some t0)
      { σ with eyeUsed := some 1, prevsample := (-1, -1) }
      ctr.bumpS.bumpC := by
  simp [blinkInnerBody, sample_stream henv hrec heye, hs,
    is_valid_sample, get_time, Ctr.bumpS, hd]

theorem blinkInnerBody_wait {env : Env} {g : ℕ → Gaze}
    (henv : ∀ i, env.feed i = some (rawOf (g i))) (p : Params) (t0 : ℚ)
    {σ : TState} (hrec : σ.recording = true) (heye : σ.eyeUsed = some 1)
    (ctr : Ctr) (hs : g ctr.s = (-1, -1))
    (hd : ¬(env.clk ctr.c - t0 ≥ p.blink_threshold)) :
    blinkInnerBody env p t0 () σ ctr = .cont ()
      { σ with eyeUsed := some 1, prevsample := (-1, -1) }
      ctr.bumpS.bumpC := by
  simp [blinkInnerBody, sample_stream henv hrec heye, hs,
    is_valid_sample, get_time, Ctr.bumpS, hd]

theorem blinkInnerBody_valid {env : Env} {g : ℕ → Gaze}
    (henv : ∀ i, env.feed i = some (rawOf (g i))) (p : Params) (t0 : ℚ)
    {σ : TState} (hrec : σ.recording = true) (heye : σ.eyeUsed = some 1)
    (ctr : Ctr) (hs : g ctr.s ≠ (-1, -1)) :
    blinkInnerBody env p t0 () σ ctr = .done none
      { σ with eyeUsed := some 1, prevsample := g ctr.s }
      ctr.bumpS := by
  simp [blinkInnerBody, sample_stream henv hrec heye, valid_of_ne hs]

theorem blinkInner_confirm {env : Env} {p : Params} {g : ℕ → Gaze}
    (henv : ∀ i, env.feed i = some (rawOf (g i))) (t0 : ℚ) :
    ∀ (k : ℕ) (σ2 : TState) (ctr2 : Ctr),
    σ2.recording = true → σ2.eyeUsed = some 1 →
    (∀ m, m ≤ k → g (ctr2.s + m) = (-1, -1)) →
    env.clk (ctr2.c + k) - t0 ≥ p.blink_threshold →
    ∃ j, j ≤ k ∧ env.clk (ctr2.c + j) - t0 ≥ p.blink_threshold ∧
      ∀ fuel, j < fuel →
        runLoop (blinkInnerBody env p t0) fuel () σ2 ctr2
          = .ok (some t0)
            { σ2 with eyeUsed := some 1, prevsample := (-1, -1) }
            { ctr2 with s := ctr2.s + j + 1, c := ctr2.c + j + 1 } := by
  intro k
  induction k with
  | zero =>
    intro σ2 ctr2 hr he hinv hk
    simp only [Nat.add_zero] at hk
    refine ⟨0, le_refl 0, hk, fun fuel hf => ?_⟩
    obtain ⟨f, rfl⟩ : ∃ f, fuel = f + 1 := ⟨fuel - 1, by omega⟩
    have hb := blinkInnerBody_confirm henv p t0 hr he ctr2
      (by simpa using hinv 0 (le_refl 0)) hk
    rw [runLoop_done hb f]
    simp [Ctr.bumpS, Ctr.bumpC]
  | succ n ih =>
    intro σ2 ctr2 hr he hinv hk
    by_cases hnow : env.clk ctr2.c - t0 ≥ p.blink_threshold
    · refine ⟨0, by omega, by simpa using hnow, fun fuel hf => ?_⟩
      obtain ⟨f, rfl⟩ : ∃ f, fuel = f + 1 := ⟨fuel - 1, by omega⟩
      have hb := blinkInnerBody_confirm henv p t0 hr he ctr2
        (by simpa using hinv 0 (by omega)) hnow
      rw [runLoop_done hb f]
      simp [Ctr.bumpS, Ctr.bumpC]
    · have hb := blinkInnerBody_wait henv p t0 hr he ctr2
        (by simpa using hinv 0 (by omega)) hnow
      have hinv2 : ∀ m, m ≤ n →
          g (ctr2.bumpS.bumpC.s + m) = (-1, -1) := by
        intro m hm
        have := hinv (m + 1) (by omega)
        simpa [Ctr.bumpS, Ctr.bumpC, Nat.add_assoc, Nat.add_comm 1 m]
          using this
      have hk2 : env.clk (ctr2.bumpS.bumpC.c + n) - t0
          ≥ p.blink_threshold := by
        have hcc : ctr2.bumpS.bumpC.c + n = ctr2.c + (n + 1) := by
          simp [Ctr.bumpS, Ctr.bumpC]
          omega
        rw [hcc]
        exact hk
      obtain ⟨j, hj, hjthr, hrun⟩ := ih
        { σ2 with eyeUsed := some 1, prevsample := (-1, -1) }
        ctr2.bumpS.bumpC hr rfl hinv2 hk2
      refine ⟨j + 1, by omega, ?_, fun fuel hf => ?_⟩
      · have hcc : ctr2.bumpS.bumpC.c + j = ctr2.c + (j + 1) := by
          simp [Ctr.bumpS, Ctr.bumpC]
          omega
        rw [hcc] at hjthr
        exact hjthr
      · obtain ⟨f, rfl⟩ : ∃ f, fuel = f + 1 := ⟨fuel - 1, by omega⟩
        rw [runLoop_cont hb f]
        have := hrun f (by omega)
        rw [this]
        simp only [Ctr.bumpS, Ctr.bumpC]
        congr 1 <;> try rfl
        · congr 1 <;> omega


theorem blinkEndLoop_run {env : Env} {g : ℕ → Gaze}
    (henv : ∀ i, env.feed i = some (rawOf (g i))) :
    ∀ (d : ℕ) (σ3 : TState) (ctr3 : Ctr),
    σ3.recording = true → σ3.eyeUsed = some 1 →
    (∀ m, m < d → g (ctr3.s + m) = (-1, -1)) →
    g (ctr3.s + d) ≠ (-1, -1) →
    runLoop (blinkEndBody env) (d + 1) () σ3 ctr3
      = .ok () { σ3 with eyeUsed := some 1, prevsample := g (ctr3.s + d) }
        { ctr3 with s := ctr3.s + d + 1 } := by
  intro d
  induction d with
  | zero =>
    intro σ3 ctr3 hr he _ hv
    have hb : blinkEndBody env () σ3 ctr3 = .done ()
        { σ3 with eyeUsed := some 1, prevsample := g ctr3.s }
        ctr3.bumpS := by
      simp [blinkEndBody, sample_stream henv hr he,
        valid_of_ne (by simpa using hv)]
    rw [runLoop_done hb 0]
    simp [Ctr.bumpS]
  | succ n ih =>
    intro σ3 ctr3 hr he hinv hv
    have hb : blinkEndBody env () σ3 ctr3 = .cont ()
        { σ3 with eyeUsed := some 1, prevsample := (-1, -1) }
        ctr3.bumpS := by
      have h0 := hinv 0 (by omega)
      simp only [Nat.add_zero] at h0
      simp [blinkEndBody, sample_stream henv hr he, h0, is_valid_sample]
    rw [runLoop_cont hb (n + 1)]
    have hinv2 : ∀ m, m < n → g (ctr3.bumpS.s + m) = (-1, -1) := by
      intro m hm
      have := hinv (m + 1) (by omega)
      simpa [Ctr.bumpS, Nat.add_assoc, Nat.add_comm 1 m] using this
    have hv2 : g (ctr3.bumpS.s + n) ≠ (-1, -1) := by
      have hcc : ctr3.bumpS.s + n = ctr3.s + (n + 1) := by
        simp [Ctr.bumpS]
        omega
      rw [hcc]
      exact hv
    have := ih { σ3 with eyeUsed := some 1, prevsample := (-1, -1) }
      ctr3.bumpS hr rfl hinv2 hv2
    rw [this]
    simp only [Ctr.bumpS]
    congr 2 <;> try omega
    all_goals congr 1 <;> omega

theorem blinkInner_exit {env : Env} {p : Params} {g : ℕ → Gaze}
    (henv : ∀ i, env.feed i = some (rawOf (g i))) (t0 : ℚ) :
    ∀ (d : ℕ) (σ2 : TState) (ctr2 : Ctr),
    σ2.recording = true → σ2.eyeUsed = some 1 →
    (∀ m, m < d → g (ctr2.s + m) = (-1, -1)) →
    g (ctr2.s + d) ≠ (-1, -1) →
    (∀ m, m < d → env.clk (ctr2.c + m) - t0 < p.blink_threshold) →
    ∀ fuel, runLoop (blinkInnerBody env p t0) fuel () σ2 ctr2 = .out ∨
      (d < fuel ∧
        runLoop (blinkInnerBody env p t0) fuel () σ2 ctr2
          = .ok none
            { σ2 with eyeUsed := some 1, prevsample := g (ctr2.s + d) }
            { ctr2 with s := ctr2.s + d + 1, c := ctr2.c + d }) := by
  intro d
  induction d with
  | zero =>
    intro σ2 ctr2 hr he _ hv _ fuel
    match fuel with
    | 0 => exact Or.inl rfl
    | f + 1 =>
      refine Or.inr ⟨by omega, ?_⟩
      have hb := blinkInnerBody_valid henv p t0 hr he ctr2
        (by simpa using hv)
      rw [runLoop_done hb f]
      simp [Ctr.bumpS]
  | succ n ih =>
    intro σ2 ctr2 hr he hinv hv hbelow fuel
    match fuel with
    | 0 => exact Or.inl rfl
    | f + 1 =>
      have hb := blinkInnerBody_wait henv p t0 hr he ctr2
        (by simpa using hinv 0 (by omega))
        (by simpa using not_le.2 (by
          simpa using hbelow 0 (by omega)))
      rw [runLoop_cont hb f]
      have hinv2 : ∀ m, m < n → g (ctr2.bumpS.bumpC.s + m) = (-1, -1) := by
        intro m hm
        have := hinv (m + 1) (by omega)
        simpa [Ctr.bumpS, Ctr.bumpC, Nat.add_assoc, Nat.add_comm 1 m]
          using this
      have hv2 : g (ctr2.bumpS.bumpC.s + n) ≠ (-1, -1) := by
        have hcc : ctr2.bumpS.bumpC.s + n = ctr2.s + (n + 1) := by
          simp [Ctr.bumpS, Ctr.bumpC]
          omega
        rw [hcc]
        exact hv
      have hbelow2 : ∀ m, m < n →
          env.clk (ctr2.bumpS.bumpC.c + m) - t0 < p.blink_threshold := by
        intro m hm
        have hcc : ctr2.bumpS.bumpC.c + m = ctr2.c + (m + 1) := by
          simp [Ctr.bumpS, Ctr.bumpC]
          omega
        rw [hcc]
        exact hbelow (m + 1) (by omega)
      rcases ih { σ2 with eyeUsed := some 1, prevsample := (-1, -1) }
        ctr2.bumpS.bumpC hr rfl hinv2 hv2 hbelow2 f with hout | ⟨hlt, hok⟩
      · exact Or.inl hout
      · refine Or.inr ⟨by omega, ?_⟩
        rw [hok]
        have h1 : ctr2.bumpS.bumpC.s + n = ctr2.s + (n + 1) := by
          simp [Ctr.bumpS, Ctr.bumpC]
          omega
        have h2 : ctr2.bumpS.bumpC.c + n = ctr2.c + (n + 1) := by
          simp [Ctr.bumpS, Ctr.bumpC]
          omega
        rw [h1, h2]
        simp [Ctr.bumpS, Ctr.bumpC]


theorem blinkOuter_valid_out {env : Env} {p : Params} {g : ℕ → Gaze}
    (henv : ∀ i, env.feed i = some (rawOf (g i))) (F : ℕ) :
    ∀ (fuel : ℕ) (σ2 : TState) (ctr2 : Ctr),
    σ2.recording = true → σ2.eyeUsed = some 1 →
    (∀ i, ctr2.s ≤ i → g i ≠ (-1, -1)) →
    runLoop (blinkOuterBody env p F) fuel () σ2 ctr2 = .out := by
  intro fuel
  induction fuel with
  | zero => intros; rfl
  | succ n ih =>
    intro σ2 ctr2 hr he hva
    have hb : blinkOuterBody env p F () σ2 ctr2 = .cont ()
        { σ2 with eyeUsed := some 1, prevsample := g ctr2.s }
        ctr2.bumpS := by
      simp [blinkOuterBody, sample_stream henv hr he,
        valid_of_ne (hva ctr2.s (le_refl _))]
    rw [runLoop_cont hb n]
    refine ih _ _ hr rfl (fun i hi => hva i ?_)
    simp [Ctr.bumpS] at hi
    omega

/-- C7: for a stream that is invalid on exactly the first `N` polls and
valid afterwards, under a monotone clock: if some confirmation-loop
clock read during the invalid run is at least `t0 + blink_threshold`
(with strictly fewer than `N - 1` samples consumed), then
`wait_for_blink_start` returns the timestamp `t0` recorded at the
first invalid sample, and a subsequent `wait_for_blink_end` from the
returned state gives `t_end` with `t_start ≤ t_end` and
`t_end - t_start ≥ blink_threshold`; and if every clock read taken
while the run is still invalid stays below the threshold, then
`wait_for_blink_start` never returns at all. -/
theorem C7_blink_timing (env : Env) (p : Params) (g : ℕ → Gaze)
    (σ : TState) (ctr : Ctr) (N : ℕ)
    (henv : ∀ i, env.feed i = some (rawOf (g i)))
    (hrec : σ.recording = true) (heye : σ.eyeUsed = some 1)
    (hs0 : ctr.s = 0) (hN : 1 ≤ N)
    (hinv : ∀ i, i < N → g i = (-1, -1))
    (hval : ∀ i, N ≤ i → g i ≠ (-1, -1))
    (hmono : ∀ i j, i ≤ j → env.clk i ≤ env.clk j) :
    ((∃ k, k + 1 < N ∧
        env.clk (ctr.c + 1 + k) - env.clk ctr.c ≥ p.blink_threshold) →
      ∃ F1 F2 tstart tend σ4 ctr4 σ5 ctr5,
        wait_for_blink_start_pygaze env p F1 σ ctr = .ok tstart σ4 ctr4 ∧
        wait_for_blink_end_pygaze env F2 σ4 ctr4 = .ok tend σ5 ctr5 ∧
        tstart = env.clk ctr.c ∧ tstart ≤ tend ∧
        tend - tstart ≥ p.blink_threshold) ∧
    ((∀ m, m + 1 < N →
        env.clk (ctr.c + 1 + m) - env.clk ctr.c < p.blink_threshold) →
      ∀ fuel, wait_for_blink_start_pygaze env p fuel σ ctr = .out) := by
  have hg0 : g ctr.s = (-1, -1) := by
    rw [hs0]
    exact hinv 0 hN
  constructor
  · rintro ⟨k, hkN, hk⟩
    have hinvk : ∀ m, m ≤ k → g (ctr.bumpS.bumpC.s + m) = (-1, -1) := by
      intro m hm
      apply hinv
      simp [Ctr.bumpS, Ctr.bumpC, hs0]
      omega
    have hkk : env.clk (ctr.bumpS.bumpC.c + k) - env.clk ctr.c
        ≥ p.blink_threshold := by
      have hcc : ctr.bumpS.bumpC.c + k = ctr.c + 1 + k := by
        simp [Ctr.bumpS, Ctr.bumpC]
      rw [hcc]
      exact hk
    obtain ⟨j, hjk, hjthr, hrun⟩ := blinkInner_confirm henv
      (env.clk ctr.c) k { σ with eyeUsed := some 1, prevsample := (-1, -1) }
      ctr.bumpS.bumpC hrec rfl hinvk hkk
    have hb : blinkOuterBody env p (j + 1) () σ ctr
        = .done (env.clk ctr.c)
          { σ with eyeUsed := some 1, prevsample := (-1, -1) }
          (Ctr.mk (ctr.bumpS.bumpC.s + j + 1) (ctr.bumpS.bumpC.c + j + 1)
            ctr.d ctr.f ctr.tt) := by
      simp [blinkOuterBody, sample_stream henv hrec heye, hg0,
        is_valid_sample, get_time, Ctr.bumpS, Ctr.bumpC]
      have := hrun (j + 1) (by omega)
      simp only [Ctr.bumpS, Ctr.bumpC] at this
      simp [this]
    have hstart : wait_for_blink_start_pygaze env p (j + 1) σ ctr
        = .ok (env.clk ctr.c)
          { σ with eyeUsed := some 1, prevsample := (-1, -1) }
          (Ctr.mk (ctr.bumpS.bumpC.s + j + 1) (ctr.bumpS.bumpC.c + j + 1)
            ctr.d ctr.f ctr.tt) := by
      rw [wait_for_blink_start_pygaze]
      exact runLoop_done hb j
    have hjN : j + 2 ≤ N := by omega
    have hsS : ctr.bumpS.bumpC.s + j + 1 = j + 2 := by
      simp [Ctr.bumpS, Ctr.bumpC, hs0]
      omega
    have hsC : ctr.bumpS.bumpC.c + j + 1 = ctr.c + j + 2 := by
      simp [Ctr.bumpS, Ctr.bumpC]
      omega
    have hend := blinkEndLoop_run henv (N - (j + 2))
      { σ with eyeUsed := some 1, prevsample := (-1, -1) }
      (Ctr.mk (ctr.bumpS.bumpC.s + j + 1) (ctr.bumpS.bumpC.c + j + 1)
        ctr.d ctr.f ctr.tt) hrec rfl
      (by
        intro m hm
        apply hinv
        simp only [hsS]
        omega)
      (by
        have hidx : (Ctr.mk (ctr.bumpS.bumpC.s + j + 1)
            (ctr.bumpS.bumpC.c + j + 1) ctr.d ctr.f ctr.tt).s
            + (N - (j + 2)) = N := by
          simp only [hsS]
          omega
        rw [hidx]
        exact hval N (le_refl N))
    have hendrun : ∃ σ5 ctr5, wait_for_blink_end_pygaze env
        (N - (j + 2) + 1)
        { σ with eyeUsed := some 1, prevsample := (-1, -1) }
        (Ctr.mk (ctr.bumpS.bumpC.s + j + 1) (ctr.bumpS.bumpC.c + j + 1)
          ctr.d ctr.f ctr.tt)
        = .ok (env.clk (ctr.c + j + 2)) σ5 ctr5 := by
      rw [wait_for_blink_end_pygaze, hend]
      simp only [get_time]
      rw [hsC]
      exact ⟨_, _, rfl⟩
    obtain ⟨σ5, ctr5, hendok⟩ := hendrun
    refine ⟨j + 1, N - (j + 2) + 1, env.clk ctr.c,
      env.clk (ctr.c + j + 2), _, _, σ5, ctr5, hstart, hendok, rfl,
      ?_, ?_⟩
    · exact hmono ctr.c (ctr.c + j + 2) (by omega)
    · have h1 : env.clk (ctr.c + 1 + j) ≤ env.clk (ctr.c + j + 2) :=
        hmono _ _ (by omega)
      have h2 : env.clk (ctr.c + 1 + j) - env.clk ctr.c
          ≥ p.blink_threshold := by
        have hcc : ctr.bumpS.bumpC.c + j = ctr.c + 1 + j := by
          simp [Ctr.bumpS, Ctr.bumpC]
        rw [hcc] at hjthr
        exact hjthr
      linarith
  · intro hbelow fuel
    match fuel with
    | 0 => rfl
    | f + 1 =>
      have hinv2 : ∀ m, m < N - 1 →
          g (ctr.bumpS.bumpC.s + m) = (-1, -1) := by
        intro m hm
        apply hinv
        simp [Ctr.bumpS, Ctr.bumpC, hs0]
        omega
      have hval2 : g (ctr.bumpS.bumpC.s + (N - 1)) ≠ (-1, -1) := by
        have hidx : ctr.bumpS.bumpC.s + (N - 1) = N := by
          simp [Ctr.bumpS, Ctr.bumpC, hs0]
          omega
        rw [hidx]
        exact hval N (le_refl N)
      have hbelow2 : ∀ m, m < N - 1 →
          env.clk (ctr.bumpS.bumpC.c + m) - env.clk ctr.c
            < p.blink_threshold := by
        intro m hm
        have hcc : ctr.bumpS.bumpC.c + m = ctr.c + 1 + m := by
          simp [Ctr.bumpS, Ctr.bumpC]
        rw [hcc]
        exact hbelow m (by omega)
      rcases blinkInner_exit henv (env.clk ctr.c) (N - 1)
        { σ with eyeUsed := some 1, prevsample := (-1, -1) }
        ctr.bumpS.bumpC hrec rfl hinv2 hval2 hbelow2 (f + 1) with
        hout | ⟨hlt, hok⟩
      · have hb : blinkOuterBody env p (f + 1) () σ ctr = .spin := by
          simp [blinkOuterBody, sample_stream henv hrec heye, hg0,
            is_valid_sample, get_time, Ctr.bumpS, Ctr.bumpC]
          have := hout
          simp only [Ctr.bumpS, Ctr.bumpC] at this
          simp [this]
        rw [wait_for_blink_start_pygaze, runLoop, hb]
      · have hb : blinkOuterBody env p (f + 1) () σ ctr = .cont ()
            (TState.mk σ.recording (some 1)
              (g (ctr.bumpS.bumpC.s + (N - 1))) σ.prevps)
            (Ctr.mk (ctr.bumpS.bumpC.s + (N - 1) + 1)
              (ctr.bumpS.bumpC.c + (N - 1)) ctr.d ctr.f ctr.tt) := by
          simp [blinkOuterBody, sample_stream henv hrec heye, hg0,
            is_valid_sample, get_time, Ctr.bumpS, Ctr.bumpC]
          have := hok
          simp only [Ctr.bumpS, Ctr.bumpC] at this
          simp [this]
        rw [wait_for_blink_start_pygaze, runLoop_cont hb f]
        refine blinkOuter_valid_out henv (f + 1) f _ _ hrec rfl
          (fun i hi => hval i ?_)
        simp [Ctr.bumpS, Ctr.bumpC, hs0] at hi
        omega

theorem C7_blink_timing_witness :
    ((∃ k, k + 1 < 3 ∧
        envBlink.clk (ctr0.c + 1 + k) - envBlink.clk ctr0.c
          ≥ cParams.blink_threshold) →
      ∃ F1 F2 tstart tend σ4 ctr4 σ5 ctr5,
        wait_for_blink_start_pygaze envBlink cParams F1 recState ctr0
          = .ok tstart σ4 ctr4 ∧
        wait_for_blink_end_pygaze envBlink F2 σ4 ctr4
          = .ok tend σ5 ctr5 ∧
        tstart = envBlink.clk ctr0.c ∧ tstart ≤ tend ∧
        tend - tstart ≥ cParams.blink_threshold) ∧
    ((∀ m, m + 1 < 3 →
        envBlink.clk (ctr0.c + 1 + m) - envBlink.clk ctr0.c
          < cParams.blink_threshold) →
      ∀ fuel,
        wait_for_blink_start_pygaze envBlink cParams fuel recState ctr0
          = .out) := by
  refine C7_blink_timing envBlink cParams gBlink recState ctr0 3
    (fun i => rfl) rfl rfl rfl (by norm_num)
    (fun i hi => by simp [gBlink, hi]) (fun i hi => ?_)
    (fun i j h => by
      simp only [envBlink, tickClk]
      exact_mod_cast h)
  have hni : ¬(i < 3) := by omega
  simp only [gBlink, hni, if_false]
  norm_num


theorem sample_ok_state {env : Env} {σ : TState} {ctr : Ctr} {g : Gaze}
    {σ1 : TState} {ctr1 : Ctr}
    (h : sample env σ ctr = .ok (g, σ1, ctr1)) :
    σ1 = sampleState env σ ctr.s ∧ ctr1 = ctr.bumpS := by
  by_cases hr : σ.recording = false
  · simp [sample, hr] at h
  · rw [sample, if_neg hr] at h
    cases hf : env.feed ctr.s with
    | some s =>
      rw [hf] at h
      simp only [Except.ok.injEq, Prod.mk.injEq] at h
      refine ⟨?_, h.2.2.symm⟩
      rw [← h.2.1]
      simp [sampleState, hf]
    | none =>
      rw [hf] at h
      simp only [Except.ok.injEq, Prod.mk.injEq] at h
      refine ⟨?_, h.2.2.symm⟩
      rw [← h.2.1]
      simp [sampleState, hf]

theorem sample_setPs (env : Env) (σ : TState) (ctr : Ctr) (q : ℚ) :
    sample env (setPs σ q) ctr
      = match sample env σ ctr with
        | .ok (g, σ1, ctr1) => .ok (g, setPs σ1 q, ctr1)
        | .error e => .error e := by
  rw [sample, sample]
  by_cases hr : σ.recording = false
  · simp [setPs, hr]
  · simp only [setPs, hr, if_false]
    cases hf : env.feed ctr.s <;> simp [hf]

theorem pollFoldS_add (env : Env) (k : ℕ) :
    ∀ (m : ℕ) (σ : TState) (s : ℕ),
    pollFoldS env (k + m) σ s
      = pollFoldS env m (pollFoldS env k σ s) (s + k) := by
  induction k with
  | zero => intro m σ s; simp [pollFoldS]
  | succ n ih =>
    intro m σ s
    have h1 : n + 1 + m = n + m + 1 := by omega
    rw [h1, pollFoldS, pollFoldS, ih m (sampleState env σ s) (s + 1)]
    have h2 : s + 1 + n = s + (n + 1) := by omega
    rw [h2]

theorem pollFoldS_prevps (env : Env) :
    ∀ (k : ℕ) (σ : TState) (s : ℕ),
    (pollFoldS env k σ s).prevps = σ.prevps := by
  intro k
  induction k with
  | zero => intro σ s; rfl
  | succ n ih =>
    intro σ s
    rw [pollFoldS, ih]
    cases hf : env.feed s <;> simp [sampleState, hf]

theorem viaPolls_one {env : Env} {σ : TState} {ctr : Ctr} {σ1 : TState}
    (h : σ1 = sampleState env σ ctr.s) {ctr1 : Ctr}
    (hs : ctr1.s = ctr.s + 1) : ViaPolls env σ ctr σ1 ctr1 :=
  ⟨1, by rw [h]; rfl, hs⟩

theorem viaPolls_trans {env : Env} {σ : TState} {ctr : Ctr} {σ1 : TState}
    {ctr1 : Ctr} {σ2 : TState} {ctr2 : Ctr}
    (h1 : ViaPolls env σ ctr σ1 ctr1) (h2 : ViaPolls env σ1 ctr1 σ2 ctr2) :
    ViaPolls env σ ctr σ2 ctr2 := by
  obtain ⟨k, hk, hks⟩ := h1
  obtain ⟨m, hm, hms⟩ := h2
  refine ⟨k + m, ?_, by omega⟩
  rw [pollFoldS_add, ← hk, ← hks]
  exact hm

theorem runLoop_via {α β : Type} {env : Env}
    {body : α → TState → Ctr → BodyRes α β} (hb : BodyVia env body) :
    ∀ (fuel : ℕ) (a : α) (σ : TState) (ctr : Ctr) (b : β) (σ1 : TState)
    (ctr1 : Ctr), runLoop body fuel a σ ctr = .ok b σ1 ctr1 →
    ViaPolls env σ ctr σ1 ctr1 := by
  intro fuel
  induction fuel with
  | zero => intro a σ ctr b σ1 ctr1 h; simp [runLoop] at h
  | succ n ih =>
    intro a σ ctr b σ1 ctr1 h
    rw [runLoop] at h
    cases hbb : body a σ ctr with
    | cont a2 σ2 c2 =>
      rw [hbb] at h
      exact viaPolls_trans ((hb a σ ctr).1 a2 σ2 c2 hbb)
        (ih a2 σ2 c2 b σ1 ctr1 h)
    | done b2 σ2 c2 =>
      rw [hbb] at h
      simp only [RunRes.ok.injEq] at h
      rw [← h.2.1, ← h.2.2]
      exact (hb a σ ctr).2 b2 σ2 c2 hbb
    | fail e => rw [hbb] at h; exact absurd h (by simp)
    | spin => rw [hbb] at h; exact absurd h (by simp)

theorem runLoop_setPs {α β : Type}
    {body : α → TState → Ctr → BodyRes α β} (hb : BodyPs body) (q : ℚ) :
    ∀ (fuel : ℕ) (a : α) (σ : TState) (ctr : Ctr),
    runLoop body fuel a (setPs σ q) ctr
      = (runLoop body fuel a σ ctr).withPs q := by
  intro fuel
  induction fuel with
  | zero => intro a σ ctr; rfl
  | succ n ih =>
    intro a σ ctr
    rw [runLoop, runLoop, hb a σ ctr q]
    cases hbb : body a σ ctr with
    | cont a2 σ2 c2 => simp only [BodyRes.mapPs]; exact ih a2 σ2 c2
    | done b2 σ2 c2 => rfl
    | fail e => rfl
    | spin => rfl


theorem viaPolls_of_sample {env : Env} {σ : TState} {ctr : Ctr} {g : Gaze}
    {σ2 : TState} {c2 : Ctr} (hsa : sample env σ ctr = .ok (g, σ2, c2))
    {σ1 : TState} {ctr1 : Ctr} (h1 : σ1 = σ2) (h2 : ctr1.s = c2.s) :
    ViaPolls env σ ctr σ1 ctr1 := by
  obtain ⟨hst, hc⟩ := sample_ok_state hsa
  refine viaPolls_one (h1.trans hst) ?_
  rw [h2, hc]
  simp [Ctr.bumpS]

theorem bodyVia_pollValid (env : Env) : BodyVia env (pollValidBody env) := by
  intro a σ ctr
  cases hsa : sample env σ ctr with
  | error e =>
    constructor <;> intro x σ1 ctr1 h <;> simp [pollValidBody, hsa] at h
  | ok v =>
    obtain ⟨g, σ2, c2⟩ := v
    constructor <;> intro x σ1 ctr1 h <;>
      simp only [pollValidBody, hsa] at h <;> split_ifs at h <;>
      simp only [BodyRes.cont.injEq, BodyRes.done.injEq] at h <;>
      exact viaPolls_of_sample hsa h.2.1.symm (by rw [← h.2.2])

theorem bodyVia_saccStart (env : Env) (p : Params) :
    BodyVia env (saccStartBody env p) := by
  intro a σ ctr
  cases hsa : sample env σ ctr with
  | error e =>
    constructor <;> intro x σ1 ctr1 h <;> simp [saccStartBody, hsa] at h
  | ok v =>
    obtain ⟨g, σ2, c2⟩ := v
    constructor <;> intro x σ1 ctr1 h <;>
      simp only [saccStartBody, hsa, get_time] at h <;> split_ifs at h <;>
      simp only [BodyRes.cont.injEq, BodyRes.done.injEq] at h <;>
      exact viaPolls_of_sample hsa h.2.1.symm
        (by rw [← h.2.2]; simp [Ctr.bumpC])

theorem bodyVia_saccEnd (env : Env) (p : Params) :
    BodyVia env (saccEndBody env p) := by
  intro a σ ctr
  cases hsa : sample env σ ctr with
  | error e =>
    constructor <;> intro x σ1 ctr1 h <;> simp [saccEndBody, hsa] at h
  | ok v =>
    obtain ⟨g, σ2, c2⟩ := v
    constructor <;> intro x σ1 ctr1 h <;>
      simp only [saccEndBody, hsa, get_time] at h <;> split_ifs at h <;>
      simp only [BodyRes.cont.injEq, BodyRes.done.injEq] at h <;>
      exact viaPolls_of_sample hsa h.2.1.symm
        (by rw [← h.2.2]; simp [Ctr.bumpC])

theorem bodyVia_fixStart (env : Env) (p : Params) :
    BodyVia env (fixStartBody env p) := by
  intro a σ ctr
  cases hsa : sample env σ ctr with
  | error e =>
    constructor <;> intro x σ1 ctr1 h <;> simp [fixStartBody, hsa] at h
  | ok v =>
    obtain ⟨g, σ2, c2⟩ := v
    constructor <;> intro x σ1 ctr1 h <;>
      simp only [fixStartBody, hsa, get_time] at h <;> split_ifs at h <;>
      simp only [BodyRes.cont.injEq, BodyRes.done.injEq] at h <;>
      exact viaPolls_of_sample hsa h.2.1.symm
        (by rw [← h.2.2] <;> simp [Ctr.bumpC])

theorem bodyVia_fixEnd (env : Env) (p : Params) (spos : Gaze) :
    BodyVia env (fixEndBody env p spos) := by
  intro a σ ctr
  cases hsa : sample env σ ctr with
  | error e =>
    constructor <;> intro x σ1 ctr1 h <;> simp [fixEndBody, hsa] at h
  | ok v =>
    obtain ⟨g, σ2, c2⟩ := v
    constructor <;> intro x σ1 ctr1 h <;>
      simp only [fixEndBody, hsa] at h <;> split_ifs at h <;>
      simp only [BodyRes.cont.injEq, BodyRes.done.injEq] at h <;>
      exact viaPolls_of_sample hsa h.2.1.symm (by rw [← h.2.2])

theorem bodyVia_blinkInner (env : Env) (p : Params) (t0 : ℚ) :
    BodyVia env (blinkInnerBody env p t0) := by
  intro a σ ctr
  cases hsa : sample env σ ctr with
  | error e =>
    constructor <;> intro x σ1 ctr1 h <;> simp [blinkInnerBody, hsa] at h
  | ok v =>
    obtain ⟨g, σ2, c2⟩ := v
    constructor <;> intro x σ1 ctr1 h <;>
      simp only [blinkInnerBody, hsa, get_time] at h <;> split_ifs at h <;>
      simp only [BodyRes.cont.injEq, BodyRes.done.injEq] at h <;>
      exact viaPolls_of_sample hsa h.2.1.symm
        (by rw [← h.2.2] <;> simp [Ctr.bumpC])

theorem bodyVia_blinkEnd (env : Env) : BodyVia env (blinkEndBody env) := by
  intro a σ ctr
  cases hsa : sample env σ ctr with
  | error e =>
    constructor <;> intro x σ1 ctr1 h <;> simp [blinkEndBody, hsa] at h
  | ok v =>
    obtain ⟨g, σ2, c2⟩ := v
    constructor <;> intro x σ1 ctr1 h <;>
      simp only [blinkEndBody, hsa] at h <;> split_ifs at h <;>
      simp only [BodyRes.cont.injEq, BodyRes.done.injEq] at h <;>
      exact viaPolls_of_sample hsa h.2.1.symm (by rw [← h.2.2])

theorem bodyVia_blinkOuter (env : Env) (p : Params) (F : ℕ) :
    BodyVia env (blinkOuterBody env p F) := by
  intro a σ ctr
  cases hsa : sample env σ ctr with
  | error e =>
    constructor <;> intro x σ1 ctr1 h <;> simp [blinkOuterBody, hsa] at h
  | ok v =>
    obtain ⟨g, σ2, c2⟩ := v
    have hstep : ViaPolls env σ ctr σ2 c2 :=
      viaPolls_of_sample hsa rfl rfl
    constructor <;> intro x σ1 ctr1 h <;>
      simp only [blinkOuterBody, hsa, get_time] at h
    · split_ifs at h with hv
      · simp only [BodyRes.cont.injEq] at h
        exact viaPolls_of_sample hsa h.2.1.symm (by rw [← h.2.2])
      · cases hrl : runLoop (blinkInnerBody env p (env.clk c2.c)) F ()
          σ2 c2.bumpC with
        | ok ob σ3 c3 =>
          rw [hrl] at h
          cases ob with
          | none =>
            simp only [BodyRes.cont.injEq] at h
            have hvia := runLoop_via (bodyVia_blinkInner env p
              (env.clk c2.c)) F () σ2 c2.bumpC none σ3 c3 hrl
            rw [← h.2.1, ← h.2.2]
            refine viaPolls_trans hstep ?_
            obtain ⟨k, hk, hks⟩ := hvia
            exact ⟨k, hk, by simpa [Ctr.bumpC] using hks⟩
          | some t => simp at h
        | err e => rw [hrl] at h; simp at h
        | out => rw [hrl] at h; simp at h
    · split_ifs at h with hv
      cases hrl : runLoop (blinkInnerBody env p (env.clk c2.c)) F ()
          σ2 c2.bumpC with
        | ok ob σ3 c3 =>
          rw [hrl] at h
          cases ob with
          | none => exact absurd h (by simp)
          | some t =>
            simp only [BodyRes.done.injEq] at h
            have hvia := runLoop_via (bodyVia_blinkInner env p
              (env.clk c2.c)) F () σ2 c2.bumpC (some t) σ3 c3 hrl
            rw [← h.2.1, ← h.2.2]
            refine viaPolls_trans hstep ?_
            obtain ⟨k, hk, hks⟩ := hvia
            exact ⟨k, hk, by simpa [Ctr.bumpC] using hks⟩
        | err e => rw [hrl] at h; simp at h
        | out => rw [hrl] at h; simp at h

theorem viaPolls_prevps {env : Env} {σ : TState} {ctr : Ctr} {σ1 : TState}
    {ctr1 : Ctr} (h : ViaPolls env σ ctr σ1 ctr1) : σ1.prevps = σ.prevps := by
  obtain ⟨k, hk, _⟩ := h
  rw [hk, pollFoldS_prevps]

theorem viaPolls_shiftStart {env : Env} {σ : TState} {ctr ctr2 : Ctr}
    {σ1 : TState} {ctr1 : Ctr} (h : ViaPolls env σ ctr2 σ1 ctr1)
    (hs : ctr.s = ctr2.s) : ViaPolls env σ ctr σ1 ctr1 := by
  obtain ⟨k, hk, hks⟩ := h
  exact ⟨k, by rw [hs]; exact hk, by omega⟩

theorem viaPolls_castEnd {env : Env} {σ : TState} {ctr : Ctr}
    {σ1 : TState} {ctr1 ctr2 : Ctr} (h : ViaPolls env σ ctr σ1 ctr1)
    (hs : ctr2.s = ctr1.s) : ViaPolls env σ ctr σ1 ctr2 := by
  obtain ⟨k, hk, hks⟩ := h
  exact ⟨k, hk, by omega⟩

theorem withPs_map {β γ : Type} (f : β → γ) (q : ℚ) (r : RunRes β) :
    (r.withPs q).map f = (r.map f).withPs q := by
  cases r <;> rfl

theorem bodyPs_pollValid (env : Env) : BodyPs (pollValidBody env) := by
  intro a σ ctr q
  simp only [pollValidBody, sample_setPs]
  cases hsa : sample env σ ctr with
  | error e => rfl
  | ok v =>
    obtain ⟨g, σ2, c2⟩ := v
    dsimp only
    split_ifs <;> rfl

theorem bodyPs_saccStart (env : Env) (p : Params) :
    BodyPs (saccStartBody env p) := by
  intro a σ ctr q
  simp only [saccStartBody, sample_setPs]
  cases hsa : sample env σ ctr with
  | error e => rfl
  | ok v =>
    obtain ⟨g, σ2, c2⟩ := v
    dsimp only
    split_ifs <;> rfl

theorem bodyPs_saccEnd (env : Env) (p : Params) :
    BodyPs (saccEndBody env p) := by
  intro a σ ctr q
  simp only [saccEndBody, sample_setPs]
  cases hsa : sample env σ ctr with
  | error e => rfl
  | ok v =>
    obtain ⟨g, σ2, c2⟩ := v
    dsimp only
    split_ifs <;> rfl

theorem bodyPs_fixStart (env : Env) (p : Params) :
    BodyPs (fixStartBody env p) := by
  intro a σ ctr q
  simp only [fixStartBody, sample_setPs]
  cases hsa : sample env σ ctr with
  | error e => rfl
  | ok v =>
    obtain ⟨g, σ2, c2⟩ := v
    dsimp only
    split_ifs <;> rfl

theorem bodyPs_fixEnd (env : Env) (p : Params) (spos : Gaze) :
    BodyPs (fixEndBody env p spos) := by
  intro a σ ctr q
  simp only [fixEndBody, sample_setPs]
  cases hsa : sample env σ ctr with
  | error e => rfl
  | ok v =>
    obtain ⟨g, σ2, c2⟩ := v
    dsimp only
    split_ifs <;> rfl

theorem bodyPs_blinkInner (env : Env) (p : Params) (t0 : ℚ) :
    BodyPs (blinkInnerBody env p t0) := by
  intro a σ ctr q
  simp only [blinkInnerBody, sample_setPs]
  cases hsa : sample env σ ctr with
  | error e => rfl
  | ok v =>
    obtain ⟨g, σ2, c2⟩ := v
    dsimp only
    split_ifs <;> rfl

theorem bodyPs_blinkEnd (env : Env) : BodyPs (blinkEndBody env) := by
  intro a σ ctr q
  simp only [blinkEndBody, sample_setPs]
  cases hsa : sample env σ ctr with
  | error e => rfl
  | ok v =>
    obtain ⟨g, σ2, c2⟩ := v
    dsimp only
    split_ifs <;> rfl

theorem bodyPs_blinkOuter (env : Env) (p : Params) (F : ℕ) :
    BodyPs (blinkOuterBody env p F) := by
  intro a σ ctr q
  simp only [blinkOuterBody, sample_setPs]
  cases hsa : sample env σ ctr with
  | error e => rfl
  | ok v =>
    obtain ⟨g, σ2, c2⟩ := v
    dsimp only
    split_ifs with hv
    · rfl
    · rw [runLoop_setPs (bodyPs_blinkInner env p (get_time env c2).1) q]
      cases hrl : runLoop (blinkInnerBody env p (get_time env c2).1) F ()
          σ2 (get_time env c2).2 with
      | ok ob σ3 c3 => cases ob <;> rfl
      | err e => rfl
      | out => rfl

theorem opVia_saccStart (env : Env) (p : Params) (fuel : ℕ) (σ : TState)
    (ctr : Ctr) : ∀ r σ1 ctr1,
    wait_for_saccade_start_pygaze env p fuel σ ctr = .ok r σ1 ctr1 →
    ViaPolls env σ ctr σ1 ctr1 := by
  intro r σ1 ctr1 h
  rw [wait_for_saccade_start_pygaze] at h
  cases hpv : pollValid env fuel σ ctr with
  | ok g σa ca =>
    simp only [hpv] at h
    simp only [get_time] at h
    simp only [pollValid] at hpv
    refine viaPolls_trans
      (runLoop_via (bodyVia_pollValid env) fuel () σ ctr g σa ca hpv) ?_
    exact viaPolls_shiftStart
      (runLoop_via (bodyVia_saccStart env p) fuel _ σa ca.bumpC r σ1 ctr1 h)
      (by simp [Ctr.bumpC])
  | err e => simp only [hpv] at h; exact absurd h (by simp)
  | out => simp only [hpv] at h; exact absurd h (by simp)

theorem opVia_fixStart (env : Env) (p : Params) (fuel : ℕ) (σ : TState)
    (ctr : Ctr) : ∀ r σ1 ctr1,
    wait_for_fixation_start_pygaze env p fuel σ ctr = .ok r σ1 ctr1 →
    ViaPolls env σ ctr σ1 ctr1 := by
  intro r σ1 ctr1 h
  rw [wait_for_fixation_start_pygaze] at h
  cases hpv : pollValid env fuel σ ctr with
  | ok g σa ca =>
    simp only [hpv] at h
    simp only [get_time] at h
    simp only [pollValid] at hpv
    refine viaPolls_trans
      (runLoop_via (bodyVia_pollValid env) fuel () σ ctr g σa ca hpv) ?_
    exact viaPolls_shiftStart
      (runLoop_via (bodyVia_fixStart env p) fuel _ σa ca.bumpC r σ1 ctr1 h)
      (by simp [Ctr.bumpC])
  | err e => simp only [hpv] at h; exact absurd h (by simp)
  | out => simp only [hpv] at h; exact absurd h (by simp)

theorem opVia_saccEnd (env : Env) (p : Params) (fuel : ℕ) (σ : TState)
    (ctr : Ctr) : ∀ r σ1 ctr1,
    wait_for_saccade_end_pygaze env p fuel σ ctr = .ok r σ1 ctr1 →
    ViaPolls env σ ctr σ1 ctr1 := by
  intro r σ1 ctr1 h
  rw [wait_for_saccade_end_pygaze] at h
  cases hws : wait_for_saccade_start_pygaze env p fuel σ ctr with
  | ok ts σa ca =>
    simp only [hws] at h
    cases hpv : pollValid env fuel σa ca with
    | ok pp σb cb =>
      simp only [hpv] at h
      simp only [get_time] at h
      simp only [pollValid] at hpv
      have via1 := opVia_saccStart env p fuel σ ctr ts σa ca hws
      have via2 :=
        runLoop_via (bodyVia_pollValid env) fuel () σa ca pp σb cb hpv
      split at h
      · rename_i te σ3 c3 heq
        simp only [RunRes.ok.injEq] at h
        rw [← h.2.1, ← h.2.2]
        refine viaPolls_trans via1 (viaPolls_trans via2 ?_)
        exact viaPolls_shiftStart
          (runLoop_via (bodyVia_saccEnd env p) fuel _ σb cb.bumpC
            te σ3 c3 heq)
          (by simp [Ctr.bumpC])
      · exact absurd h (by simp)
      · exact absurd h (by simp)
    | err e => simp only [hpv] at h; exact absurd h (by simp)
    | out => simp only [hpv] at h; exact absurd h (by simp)
  | err e => simp only [hws] at h; exact absurd h (by simp)
  | out => simp only [hws] at h; exact absurd h (by simp)

theorem opVia_fixEnd (env : Env) (p : Params) (fuel : ℕ) (σ : TState)
    (ctr : Ctr) : ∀ r σ1 ctr1,
    wait_for_fixation_end_pygaze env p fuel σ ctr = .ok r σ1 ctr1 →
    ViaPolls env σ ctr σ1 ctr1 := by
  intro r σ1 ctr1 h
  rw [wait_for_fixation_end_pygaze] at h
  cases hws : wait_for_fixation_start_pygaze env p fuel σ ctr with
  | ok ts σa ca =>
    simp only [hws] at h
    have via1 := opVia_fixStart env p fuel σ ctr ts σa ca hws
    cases hrl : runLoop (fixEndBody env p ts.2) fuel () σa ca with
    | ok u σb cb =>
      simp only [hrl] at h
      simp only [get_time, RunRes.ok.injEq] at h
      rw [← h.2.1, ← h.2.2]
      exact viaPolls_trans via1 (viaPolls_castEnd
        (runLoop_via (bodyVia_fixEnd env p ts.2) fuel () σa ca u σb cb hrl)
        (by simp [Ctr.bumpC]))
    | err e => simp only [hrl] at h; exact absurd h (by simp)
    | out => simp only [hrl] at h; exact absurd h (by simp)
  | err e => simp only [hws] at h; exact absurd h (by simp)
  | out => simp only [hws] at h; exact absurd h (by simp)

theorem opVia_blinkStart (env : Env) (p : Params) (fuel : ℕ) (σ : TState)
    (ctr : Ctr) : ∀ r σ1 ctr1,
    wait_for_blink_start_pygaze env p fuel σ ctr = .ok r σ1 ctr1 →
    ViaPolls env σ ctr σ1 ctr1 := by
  intro r σ1 ctr1 h
  rw [wait_for_blink_start_pygaze] at h
  exact runLoop_via (bodyVia_blinkOuter env p fuel) fuel () σ ctr
    r σ1 ctr1 h

theorem opVia_blinkEnd (env : Env) (fuel : ℕ) (σ : TState)
    (ctr : Ctr) : ∀ r σ1 ctr1,
    wait_for_blink_end_pygaze env fuel σ ctr = .ok r σ1 ctr1 →
    ViaPolls env σ ctr σ1 ctr1 := by
  intro r σ1 ctr1 h
  rw [wait_for_blink_end_pygaze] at h
  cases hrl : runLoop (blinkEndBody env) fuel () σ ctr with
  | ok u σb cb =>
    simp only [hrl] at h
    simp only [get_time, RunRes.ok.injEq] at h
    rw [← h.2.1, ← h.2.2]
    exact viaPolls_castEnd
      (runLoop_via (bodyVia_blinkEnd env) fuel () σ ctr u σb cb hrl)
      (by simp [Ctr.bumpC])
  | err e => simp only [hrl] at h; exact absurd h (by simp)
  | out => simp only [hrl] at h; exact absurd h (by simp)

theorem setPs_pollValid (env : Env) (fuel : ℕ) (σ : TState) (ctr : Ctr)
    (q : ℚ) : pollValid env fuel (setPs σ q) ctr
      = (pollValid env fuel σ ctr).withPs q := by
  simp only [pollValid]
  exact runLoop_setPs (bodyPs_pollValid env) q fuel () σ ctr

theorem setPs_saccStart (env : Env) (p : Params) (fuel : ℕ) (σ : TState)
    (ctr : Ctr) (q : ℚ) :
    wait_for_saccade_start_pygaze env p fuel (setPs σ q) ctr
      = (wait_for_saccade_start_pygaze env p fuel σ ctr).withPs q := by
  rw [wait_for_saccade_start_pygaze, wait_for_saccade_start_pygaze,
    setPs_pollValid]
  cases hpv : pollValid env fuel σ ctr with
  | ok g σa ca =>
    simp only [RunRes.withPs]
    exact runLoop_setPs (bodyPs_saccStart env p) q fuel _ σa _
  | err e => rfl
  | out => rfl

theorem setPs_fixStart (env : Env) (p : Params) (fuel : ℕ) (σ : TState)
    (ctr : Ctr) (q : ℚ) :
    wait_for_fixation_start_pygaze env p fuel (setPs σ q) ctr
      = (wait_for_fixation_start_pygaze env p fuel σ ctr).withPs q := by
  rw [wait_for_fixation_start_pygaze, wait_for_fixation_start_pygaze,
    setPs_pollValid]
  cases hpv : pollValid env fuel σ ctr with
  | ok g σa ca =>
    simp only [RunRes.withPs]
    exact runLoop_setPs (bodyPs_fixStart env p) q fuel _ σa _
  | err e => rfl
  | out => rfl

theorem setPs_saccEnd (env : Env) (p : Params) (fuel : ℕ) (σ : TState)
    (ctr : Ctr) (q : ℚ) :
    wait_for_saccade_end_pygaze env p fuel (setPs σ q) ctr
      = (wait_for_saccade_end_pygaze env p fuel σ ctr).withPs q := by
  rw [wait_for_saccade_end_pygaze, wait_for_saccade_end_pygaze,
    setPs_saccStart]
  cases hws : wait_for_saccade_start_pygaze env p fuel σ ctr with
  | ok ts σa ca =>
    simp only [RunRes.withPs, setPs_pollValid]
    cases hpv : pollValid env fuel σa ca with
    | ok pp σb cb =>
      simp only [RunRes.withPs]
      rw [runLoop_setPs (bodyPs_saccEnd env p) q]
      cases hrl : runLoop (saccEndBody env p) fuel
          (ts.1, psqrt ((pp.1 - ts.2.1) ^ 2 + (pp.2 - ts.2.2) ^ 2)
            / ((get_time env cb).1 - ts.1), pp) σb (get_time env cb).2 with
      | ok te σ3 c3 => rfl
      | err e => rfl
      | out => rfl
    | err e => rfl
    | out => rfl
  | err e => rfl
  | out => rfl

theorem setPs_fixEnd (env : Env) (p : Params) (fuel : ℕ) (σ : TState)
    (ctr : Ctr) (q : ℚ) :
    wait_for_fixation_end_pygaze env p fuel (setPs σ q) ctr
      = (wait_for_fixation_end_pygaze env p fuel σ ctr).withPs q := by
  rw [wait_for_fixation_end_pygaze, wait_for_fixation_end_pygaze,
    setPs_fixStart]
  cases hws : wait_for_fixation_start_pygaze env p fuel σ ctr with
  | ok ts σa ca =>
    simp only [RunRes.withPs]
    rw [runLoop_setPs (bodyPs_fixEnd env p ts.2) q]
    cases hrl : runLoop (fixEndBody env p ts.2) fuel () σa ca with
    | ok u σb cb => rfl
    | err e => rfl
    | out => rfl
  | err e => rfl
  | out => rfl

theorem setPs_blinkStart (env : Env) (p : Params) (fuel : ℕ) (σ : TState)
    (ctr : Ctr) (q : ℚ) :
    wait_for_blink_start_pygaze env p fuel (setPs σ q) ctr
      = (wait_for_blink_start_pygaze env p fuel σ ctr).withPs q := by
  rw [wait_for_blink_start_pygaze, wait_for_blink_start_pygaze]
  exact runLoop_setPs (bodyPs_blinkOuter env p fuel) q fuel () σ ctr

theorem setPs_blinkEnd (env : Env) (fuel : ℕ) (σ : TState)
    (ctr : Ctr) (q : ℚ) :
    wait_for_blink_end_pygaze env fuel (setPs σ q) ctr
      = (wait_for_blink_end_pygaze env fuel σ ctr).withPs q := by
  rw [wait_for_blink_end_pygaze, wait_for_blink_end_pygaze,
    runLoop_setPs (bodyPs_blinkEnd env) q]
  cases hrl : runLoop (blinkEndBody env) fuel () σ ctr with
  | ok u σb cb => rfl
  | err e => rfl
  | out => rfl

theorem opFrame_map {β γ : Type} {env : Env} {X : TState → Ctr → RunRes β}
    (f : β → γ)
    (hvia : ∀ σ ctr, ∀ b σ1 ctr1, X σ ctr = .ok b σ1 ctr1 →
      ViaPolls env σ ctr σ1 ctr1)
    (hps : ∀ σ ctr q, X (setPs σ q) ctr = (X σ ctr).withPs q) :
    OpFrame env (fun σ ctr => (X σ ctr).map f) := by
  constructor
  · intro σ ctr r σ1 ctr1 h
    obtain ⟨b, _, hb⟩ := map_ok h
    have hv := hvia σ ctr b σ1 ctr1 hb
    exact ⟨hv, viaPolls_prevps hv⟩
  · intro σ ctr q
    show (X (setPs σ q) ctr).map f = ((X σ ctr).map f).withPs q
    rw [hps σ ctr q, withPs_map]

/-- C9: every heuristic-mode wait operation keeps its classification
state local to the call.  On every successful return the final object
state is exactly what the per-poll `sample()` bookkeeping alone
produces (`pollFoldS`, with the sample-call counter advanced by the
number of polls), so in particular the pupil-size cache `prevps` is
untouched; and the whole call, return value included, is oblivious to
the `prevps` value left behind by any earlier call
(`setPs`-commutation). -/
theorem C9_state_local (env : Env) (p : Params) (fuel : ℕ)
    (timeout : Option ℚ) :
    OpFrame env (wait_for_saccade_start env p .pygaze fuel) ∧
    OpFrame env (wait_for_saccade_end env p .pygaze fuel) ∧
    OpFrame env (wait_for_fixation_start env p .pygaze fuel) ∧
    OpFrame env (wait_for_fixation_end env p .pygaze fuel timeout) ∧
    OpFrame env (wait_for_blink_start env p .pygaze fuel) ∧
    OpFrame env (wait_for_blink_end env p .pygaze fuel) := by
  refine ⟨?_, ?_, ?_, ?_, ?_, ?_⟩
  · exact opFrame_map _ (fun σ ctr => opVia_saccStart env p fuel σ ctr)
      (fun σ ctr q => setPs_saccStart env p fuel σ ctr q)
  · exact opFrame_map _ (fun σ ctr => opVia_saccEnd env p fuel σ ctr)
      (fun σ ctr q => setPs_saccEnd env p fuel σ ctr q)
  · exact opFrame_map _ (fun σ ctr => opVia_fixStart env p fuel σ ctr)
      (fun σ ctr q => setPs_fixStart env p fuel σ ctr q)
  · exact opFrame_map _ (fun σ ctr => opVia_fixEnd env p fuel σ ctr)
      (fun σ ctr q => setPs_fixEnd env p fuel σ ctr q)
  · exact opFrame_map _ (fun σ ctr => opVia_blinkStart env p fuel σ ctr)
      (fun σ ctr q => setPs_blinkStart env p fuel σ ctr q)
  · exact opFrame_map _ (fun σ ctr => opVia_blinkEnd env fuel σ ctr)
      (fun σ ctr q => setPs_blinkEnd env fuel σ ctr q)

theorem C9_state_local_witness :
    wait_for_blink_end envFixHold cParams .pygaze 2 recState ctr0
        = .ok (.single 0) ⟨true, some 1, (100, 100), -1⟩ ⟨1, 1, 0, 0, 0⟩ ∧
    ViaPolls envFixHold recState ctr0
      ⟨true, some 1, (100, 100), -1⟩ ⟨1, 1, 0, 0, 0⟩ ∧
    (⟨true, some 1, (100, 100), -1⟩ : TState).prevps = recState.prevps ∧
    wait_for_blink_end envFixHold cParams .pygaze 2 (setPs recState 5)
        ctr0
      = (wait_for_blink_end envFixHold cParams .pygaze 2 recState
          ctr0).withPs 5 := by
  have hfr := (C9_state_local envFixHold cParams 2 none).2.2.2.2.2
  have hpub : wait_for_blink_end envFixHold cParams .pygaze 2 recState
      ctr0 = .ok (.single 0) ⟨true, some 1, (100, 100), -1⟩
        ⟨1, 1, 0, 0, 0⟩ := by
    norm_num [wait_for_blink_end, wait_for_blink_end_pygaze, runLoop,
      blinkEndBody, sample, recState, ctr0, envFixHold, rawOf,
      resolveGaze, is_valid_sample, get_time, tickClk, RunRes.map,
      Ctr.bumpS, Ctr.bumpC]
  have h1 := (hfr.1 recState ctr0 (.single 0)
    ⟨true, some 1, (100, 100), -1⟩ ⟨1, 1, 0, 0, 0⟩ hpub)
  exact ⟨hpub, h1.1, h1.2, hfr.2 recState ctr0 5⟩

end PyGaze
